import Mathlib

/-
Verification of the gravitational N-body simulation core of `grav-sim`
(src/state.rs).  The physics core is embedded shallowly: `f32` values are
modelled as real numbers with exact arithmetic, `Vec<Body>` as `List Body`,
and the mutating loops of `State::step` as folds/maps producing new lists.
Only the simulation-relevant fields of `State` are modelled (`bodies`,
`g_constant`, `time_step`); the GPU/window fields are irrelevant to every
claim and are omitted.
-/

/-- A point mass, from `struct Body` in src/state.rs. -/
structure Body where
  mass : ℝ
  position : ℝ × ℝ
  velocity : ℝ × ℝ
  radius : ℝ

/-- Fallback value used when indexing lists of bodies; every access in the
embedding is in range, so the value itself is never observed. -/
def body0 : Body := ⟨0, (0, 0), (0, 0), 0⟩

/-- `Body::new` from src/state.rs (lines 200-208).  The Rust function has
return type `anyhow::Result<Self>` but unconditionally returns `Ok` with
`radius = 1.0`; it performs no validation of `mass`. -/
noncomputable def Body.new (mass : ℝ) (position velocity : ℝ × ℝ) :
    Except String Body :=
  let radius : ℝ := 1.0
  Except.ok { mass := mass, position := position, velocity := velocity, radius := radius }

/-- `Body::distance_to` from src/state.rs (lines 210-214). -/
noncomputable def Body.distance_to (self other : Body) : ℝ :=
  let dx := self.position.1 - other.position.1
  let dy := self.position.2 - other.position.2
  Real.sqrt (dx * dx + dy * dy)

/-- `Body::gravitational_force` from src/state.rs (lines 216-224). -/
noncomputable def Body.gravitational_force (self other : Body) (gravity : ℝ) : ℝ × ℝ :=
  let distance := self.distance_to other
  let direct_force := gravity * self.mass * other.mass / (distance * distance)
  let dx := other.position.1 - self.position.1
  let dy := other.position.2 - self.position.2
  let fx := direct_force * dx / distance
  let fy := direct_force * dy / distance
  (fx, fy)

/-- `Body::update` from src/state.rs (lines 226-231): the velocity is
updated first, then the position using the already-updated velocity. -/
noncomputable def Body.update (self : Body) (acceleration : ℝ × ℝ) (dt : ℝ) : Body :=
  let v : ℝ × ℝ :=
    (self.velocity.1 + acceleration.1 * dt, self.velocity.2 + acceleration.2 * dt)
  { self with
    velocity := v
    position := (self.position.1 + v.1 * dt, self.position.2 + v.2 * dt) }

/-- `Body::get_kinetic_energy` from src/state.rs (lines 233-235). -/
noncomputable def Body.get_kinetic_energy (self : Body) : ℝ :=
  0.5 * self.mass * (self.velocity.1 * self.velocity.1 + self.velocity.2 * self.velocity.2)

/-- `Body::get_linear_momentum` from src/state.rs (lines 237-239). -/
noncomputable def Body.get_linear_momentum (self : Body) : ℝ × ℝ :=
  (self.mass * self.velocity.1, self.mass * self.velocity.2)

/-- The simulation-relevant fields of `struct State` in src/state.rs. -/
structure State where
  bodies : List Body
  g_constant : ℝ
  time_step : ℝ

/-- The index pairs visited by the nested loops
`for i in 0..n { for j in (i+1)..n { ... } }`, in visiting order. -/
def pairIndices (n : ℕ) : List (ℕ × ℕ) :=
  (List.range n).flatMap fun i => (List.range' (i + 1) (n - (i + 1))).map fun j => (i, j)

/-- `State::total_kinetic_energy` from src/state.rs (lines 126-130). -/
noncomputable def State.total_kinetic_energy (s : State) : ℝ :=
  s.bodies.foldl (fun acc x => acc + x.get_kinetic_energy) 0

/-- `State::total_potential_energy` from src/state.rs (lines 132-142): the
nested loops accumulate `-= g * m_i * m_j / distance` over pairs `i < j`. -/
noncomputable def State.total_potential_energy (s : State) : ℝ :=
  (pairIndices s.bodies.length).foldl
    (fun potential_energy p =>
      let bi := s.bodies.getD p.1 body0
      let bj := s.bodies.getD p.2 body0
      potential_energy - s.g_constant * bi.mass * bj.mass / bi.distance_to bj)
    0

/-- `State::total_energy` from src/state.rs (lines 144-146). -/
noncomputable def State.total_energy (s : State) : ℝ :=
  s.total_kinetic_energy + s.total_potential_energy

/-- The body of the force-accumulation loops of `State::step`
(src/state.rs lines 156-161 and 175-179): for the pair `p = (i, j)` the
force is evaluated once and `forces[i] += f / m_i`, `forces[j] -= f / m_j`. -/
noncomputable def pairUpd (bodies : List Body) (g : ℝ) (forces : List (ℝ × ℝ))
    (p : ℕ × ℕ) : List (ℝ × ℝ) :=
  let bi := bodies.getD p.1 body0
  let bj := bodies.getD p.2 body0
  let f := bi.gravitational_force bj g
  let fi := forces.getD p.1 (0, 0)
  let forces1 := forces.set p.1 (fi.1 + f.1 / bi.mass, fi.2 + f.2 / bi.mass)
  let fj := forces1.getD p.2 (0, 0)
  forces1.set p.2 (fj.1 - f.1 / bj.mass, fj.2 - f.2 / bj.mass)

/-- The acceleration-accumulation loops of `State::step`
(src/state.rs lines 154-163 and 173-181): `pairUpd` iterated over the pairs
`i < j`, starting from an all-zero accumulator. -/
noncomputable def accForces (bodies : List Body) (g : ℝ) : List (ℝ × ℝ) :=
  (pairIndices bodies.length).foldl (pairUpd bodies g)
    (List.replicate bodies.length (0, 0))

/-- The position-update loop of `State::step` (src/state.rs lines 166-169):
`x += v*dt + 0.5*a*dt*dt`, componentwise, for every body index. -/
noncomputable def posUpdate (bodies : List Body) (forces : List (ℝ × ℝ)) (dt : ℝ) :
    List Body :=
  (List.range bodies.length).map fun i =>
    let b := bodies.getD i body0
    let a := forces.getD i (0, 0)
    { b with
      position :=
        (b.position.1 + b.velocity.1 * dt + 0.5 * a.1 * dt * dt,
         b.position.2 + b.velocity.2 * dt + 0.5 * a.2 * dt * dt) }

/-- The velocity-update loop of `State::step` (src/state.rs lines 184-187):
`v += 0.5*(a + a_new)*dt`, componentwise, for every body index. -/
noncomputable def velUpdate (bodies : List Body) (forces forces_new : List (ℝ × ℝ))
    (dt : ℝ) : List Body :=
  (List.range bodies.length).map fun i =>
    let b := bodies.getD i body0
    let a := forces.getD i (0, 0)
    let a2 := forces_new.getD i (0, 0)
    { b with
      velocity :=
        (b.velocity.1 + 0.5 * (a.1 + a2.1) * dt,
         b.velocity.2 + 0.5 * (a.2 + a2.2) * dt) }

/-- `State::step` from src/state.rs (lines 148-188): accelerations at time t,
then all positions, then accelerations at the new positions, then all
velocities.  Each in-place index loop over `0..n` becomes a map over
`List.range n`. -/
noncomputable def State.step (s : State) : State :=
  let forces := accForces s.bodies s.g_constant
  let moved := posUpdate s.bodies forces s.time_step
  let forces_new := accForces moved s.g_constant
  { s with bodies := velUpdate moved forces forces_new s.time_step }

/-- The body collection and constants set up by `State::new`
(src/state.rs lines 100-105): the hardcoded symmetric two-body scenario. -/
noncomputable def State.new : State :=
  { bodies :=
      [(Body.new 100.0 (-1.0, 0.0) (0.0, 1.0)).toOption.getD body0,
       (Body.new 100.0 (1.0, 0.0) (0.0, -1.0)).toOption.getD body0]
    g_constant := 1.0
    time_step := 0.0001 }

/-! ### Definitions taken from the spec's wording, for comparison with the
translation of the source (refinement claims C2 and C6). -/

/-- The force evaluated once for the pair `p` (helper shared by the spec-side
definitions and by the characterisation lemmas). -/
noncomputable def pairForce (bodies : List Body) (g : ℝ) (p : ℕ × ℕ) : ℝ × ℝ :=
  (bodies.getD p.1 body0).gravitational_force (bodies.getD p.2 body0) g

/-- Componentwise division of a 2D vector by a scalar. -/
noncomputable def vdiv (v : ℝ × ℝ) (c : ℝ) : ℝ × ℝ := (v.1 / c, v.2 / c)

/-- Net contribution of the pair `p` to the acceleration accumulator of body
`k`: `+F/m_i` if `k` is the first member, `-F/m_j` if the second. -/
noncomputable def pairContrib (bodies : List Body) (g : ℝ) (p : ℕ × ℕ) (k : ℕ) :
    ℝ × ℝ :=
  (if p.1 = k then vdiv (pairForce bodies g p) (bodies.getD p.1 body0).mass else 0)
    - (if p.2 = k then vdiv (pairForce bodies g p) (bodies.getD p.2 body0).mass else 0)

/-- The set of unordered index pairs `(i, j)` with `i < j < n`. -/
def pairFinset (n : ℕ) : Finset (ℕ × ℕ) :=
  (Finset.range n ×ˢ Finset.range n).filter fun q => q.1 < q.2

/-- Acceleration of body `k` as the spec describes it: a sum over unordered
pairs `(i, j)`, `i < j`, of `+F/m_i` into body `i` and `-F/m_j` into body
`j`, with one force evaluation per pair. -/
noncomputable def accelSpec (bodies : List Body) (g : ℝ) (k : ℕ) : ℝ × ℝ :=
  ∑ p ∈ pairFinset bodies.length, pairContrib bodies g p k

/-- The spec's position phase: every position advanced by
`v*dt + 0.5*a*dt^2` with `a` the `accelSpec` acceleration at time t. -/
noncomputable def posUpdateSpec (bodies : List Body) (g dt : ℝ) : List Body :=
  (List.range bodies.length).map fun i =>
    let b := bodies.getD i body0
    let a := accelSpec bodies g i
    { b with
      position :=
        (b.position.1 + b.velocity.1 * dt + 0.5 * a.1 * dt * dt,
         b.position.2 + b.velocity.2 * dt + 0.5 * a.2 * dt * dt) }

/-- The spec's velocity phase: every velocity advanced by the average of the
acceleration at the old positions and at the fully-updated new positions. -/
noncomputable def velUpdateSpec (old moved : List Body) (g dt : ℝ) : List Body :=
  (List.range moved.length).map fun i =>
    let b := moved.getD i body0
    let a := accelSpec old g i
    let a2 := accelSpec moved g i
    { b with
      velocity :=
        (b.velocity.1 + 0.5 * (a.1 + a2.1) * dt,
         b.velocity.2 + 0.5 * (a.2 + a2.2) * dt) }

/-- One velocity-Verlet step as the spec describes it, phase by phase, with
the accelerations given by `accelSpec`; the acceleration at t+dt is computed
from the complete updated position list. -/
noncomputable def stepSpec (s : State) : State :=
  { s with
    bodies :=
      velUpdateSpec s.bodies (posUpdateSpec s.bodies s.g_constant s.time_step)
        s.g_constant s.time_step }

/-- Total kinetic energy as the spec describes it:
the sum over bodies of `0.5 * m * |v|^2`. -/
noncomputable def kineticSpec (s : State) : ℝ :=
  (s.bodies.map fun b =>
    0.5 * b.mass * (b.velocity.1 ^ 2 + b.velocity.2 ^ 2)).sum

/-- Total potential energy as the spec describes it:
the sum over unordered pairs `(i, j)`, `i < j`, of `-g * m_i * m_j / d_ij`. -/
noncomputable def potentialSpec (s : State) : ℝ :=
  ∑ p ∈ pairFinset s.bodies.length,
    -(s.g_constant * (s.bodies.getD p.1 body0).mass * (s.bodies.getD p.2 body0).mass
        / (s.bodies.getD p.1 body0).distance_to (s.bodies.getD p.2 body0))

/-! ### A reduced description of the two-body scenario (claim C7), and a
computable fixed-point interval arithmetic used to bound the total energy
after ten steps. -/

/-- The eight real coordinates of a two-body state with both masses 100,
radius 1, g = 1 and dt = 0.0001 — the shape of the `State::new` scenario. -/
structure P2 where
  x1 : ℝ
  y1 : ℝ
  vx1 : ℝ
  vy1 : ℝ
  x2 : ℝ
  y2 : ℝ
  vx2 : ℝ
  vy2 : ℝ

/-- The two-body state described by reduced coordinates. -/
noncomputable def toState (q : P2) : State :=
  State.mk
    [Body.mk 100 (q.x1, q.y1) (q.vx1, q.vy1) 1,
     Body.mk 100 (q.x2, q.y2) (q.vx2, q.vy2) 1] 1 0.0001

/-- The initial coordinates of the `State::new` scenario. -/
noncomputable def q0 : P2 := ⟨-1, 0, 0, 1, 1, 0, 0, -1⟩

/-- `gravitational_force` specialised to two bodies of mass 100 with g = 1,
as a function of the four position coordinates. -/
noncomputable def fP2 (x1 y1 x2 y2 : ℝ) : ℝ × ℝ :=
  let d := Real.sqrt ((x1 - x2) * (x1 - x2) + (y1 - y2) * (y1 - y2))
  let direct := 1 * 100 * 100 / (d * d)
  (direct * (x2 - x1) / d, direct * (y2 - y1) / d)

/-- Acceleration of the first body (force divided by its mass 100). -/
noncomputable def aP2 (x1 y1 x2 y2 : ℝ) : ℝ × ℝ := vdiv (fP2 x1 y1 x2 y2) 100

/-- The position phase of the step on reduced coordinates. -/
noncomputable def movedP2 (q : P2) : P2 :=
  let dt : ℝ := 0.0001
  let a1 := aP2 q.x1 q.y1 q.x2 q.y2
  let a2 := -aP2 q.x1 q.y1 q.x2 q.y2
  ⟨q.x1 + q.vx1 * dt + 0.5 * a1.1 * dt * dt,
   q.y1 + q.vy1 * dt + 0.5 * a1.2 * dt * dt,
   q.vx1, q.vy1,
   q.x2 + q.vx2 * dt + 0.5 * a2.1 * dt * dt,
   q.y2 + q.vy2 * dt + 0.5 * a2.2 * dt * dt,
   q.vx2, q.vy2⟩

/-- One full velocity-Verlet step on reduced coordinates. -/
noncomputable def stepP2 (q : P2) : P2 :=
  let dt : ℝ := 0.0001
  let a1 := aP2 q.x1 q.y1 q.x2 q.y2
  let m := movedP2 q
  let b1 := aP2 m.x1 m.y1 m.x2 m.y2
  ⟨m.x1, m.y1,
   q.vx1 + 0.5 * (a1.1 + b1.1) * dt,
   q.vy1 + 0.5 * (a1.2 + b1.2) * dt,
   m.x2, m.y2,
   q.vx2 + 0.5 * ((-a1).1 + (-b1).1) * dt,
   q.vy2 + 0.5 * ((-a1).2 + (-b1).2) * dt⟩

/-- Total energy on reduced coordinates. -/
noncomputable def EP2 (q : P2) : ℝ :=
  0.5 * 100 * (q.vx1 * q.vx1 + q.vy1 * q.vy1)
    + 0.5 * 100 * (q.vx2 * q.vx2 + q.vy2 * q.vy2)
    - 1 * 100 * 100
        / Real.sqrt ((q.x1 - q.x2) * (q.x1 - q.x2) + (q.y1 - q.y2) * (q.y1 - q.y2))

/-- Fixed-point scale: interval endpoints are integer multiples of 1/SC. -/
def SC : ℤ := 10 ^ 12

/-- An interval with integer endpoints, denoting `[lo/SC, hi/SC]`. -/
structure Iv where
  lo : ℤ
  hi : ℤ
deriving DecidableEq

/-- `x` lies in the scaled interval `I`. -/
def memIv (x : ℝ) (I : Iv) : Prop :=
  (I.lo : ℝ) ≤ x * (SC : ℝ) ∧ x * (SC : ℝ) ≤ (I.hi : ℝ)

/-- Ceiling division (for a positive divisor). -/
def cdivS (a b : ℤ) : ℤ := -Int.fdiv (-a) b

def Iv.add (a b : Iv) : Iv := ⟨a.lo + b.lo, a.hi + b.hi⟩

def Iv.sub (a b : Iv) : Iv := ⟨a.lo - b.hi, a.hi - b.lo⟩

def Iv.neg (a : Iv) : Iv := ⟨-a.hi, -a.lo⟩

def Iv.mul (a b : Iv) : Iv :=
  ⟨Int.fdiv (min (min (a.lo * b.lo) (a.lo * b.hi)) (min (a.hi * b.lo) (a.hi * b.hi))) SC,
   cdivS (max (max (a.lo * b.lo) (a.lo * b.hi)) (max (a.hi * b.lo) (a.hi * b.hi))) SC⟩

def Iv.inv (a : Iv) : Iv := ⟨Int.fdiv (SC * SC) a.hi, cdivS (SC * SC) a.lo⟩

/-- Fuelled Newton iteration for integer square roots; its output is not
trusted — the defining inequalities are re-checked at every use site. -/
def isqrtGo (n : ℤ) : ℕ → ℤ → ℤ
  | 0, g => g
  | fuel + 1, g =>
      let g2 := Int.fdiv (g + Int.fdiv n g) 2
      if g2 < g then isqrtGo n fuel g2 else g

def isqrtB (n : ℤ) : ℤ := if n ≤ 0 then 0 else isqrtGo n 100 n

def Iv.sqrtIv (a : Iv) : Iv := ⟨isqrtB (max a.lo 0 * SC), isqrtB (a.hi * SC) + 1⟩

/-- A point interval. -/
def cIv (z : ℤ) : Iv := ⟨z, z⟩

/-- The numerically checked certificate that makes `Iv.sqrtIv` sound. -/
def sqrtOK (a : Iv) : Prop :=
  0 ≤ a.sqrtIv.lo ∧ a.sqrtIv.lo * a.sqrtIv.lo ≤ max a.lo 0 * SC ∧
    a.hi * SC ≤ a.sqrtIv.hi * a.sqrtIv.hi ∧ 0 ≤ a.sqrtIv.hi

instance (a : Iv) : Decidable (sqrtOK a) := by unfold sqrtOK; infer_instance

def cdt : Iv := cIv (10 ^ 8)

def chalf : Iv := cIv (5 * 10 ^ 11)

def c100th : Iv := cIv (10 ^ 10)

def cnum : Iv := cIv (10 ^ 16)

/-- Interval version of `fP2`. -/
def ivForce (X1 Y1 X2 Y2 : Iv) : Iv × Iv :=
  let u := X1.sub X2
  let v := Y1.sub Y2
  let d := ((u.mul u).add (v.mul v)).sqrtIv
  let direct := cnum.mul (d.mul d).inv
  ((direct.mul (X2.sub X1)).mul d.inv, (direct.mul (Y2.sub Y1)).mul d.inv)

/-- Side conditions for `ivForce`. -/
def ivForceOK (X1 Y1 X2 Y2 : Iv) : Prop :=
  let u := X1.sub X2
  let v := Y1.sub Y2
  let d2 := (u.mul u).add (v.mul v)
  sqrtOK d2 ∧ 0 < (d2.sqrtIv.mul d2.sqrtIv).lo ∧ 0 < d2.sqrtIv.lo

instance (X1 Y1 X2 Y2 : Iv) : Decidable (ivForceOK X1 Y1 X2 Y2) := by
  unfold ivForceOK
  infer_instance

/-- Interval version of `aP2`. -/
def ivA (X1 Y1 X2 Y2 : Iv) : Iv × Iv :=
  ((ivForce X1 Y1 X2 Y2).1.mul c100th, (ivForce X1 Y1 X2 Y2).2.mul c100th)

/-- Interval enclosure of the eight reduced coordinates. -/
structure IvP2 where
  x1 : Iv
  y1 : Iv
  vx1 : Iv
  vy1 : Iv
  x2 : Iv
  y2 : Iv
  vx2 : Iv
  vy2 : Iv
deriving DecidableEq

def memP2 (q : P2) (S : IvP2) : Prop :=
  memIv q.x1 S.x1 ∧ memIv q.y1 S.y1 ∧ memIv q.vx1 S.vx1 ∧ memIv q.vy1 S.vy1 ∧
  memIv q.x2 S.x2 ∧ memIv q.y2 S.y2 ∧ memIv q.vx2 S.vx2 ∧ memIv q.vy2 S.vy2

/-- Interval version of `movedP2`. -/
def ivMoved (S : IvP2) : IvP2 :=
  let a := ivA S.x1 S.y1 S.x2 S.y2
  ⟨(S.x1.add (S.vx1.mul cdt)).add (((chalf.mul a.1).mul cdt).mul cdt),
   (S.y1.add (S.vy1.mul cdt)).add (((chalf.mul a.2).mul cdt).mul cdt),
   S.vx1, S.vy1,
   (S.x2.add (S.vx2.mul cdt)).add (((chalf.mul a.1.neg).mul cdt).mul cdt),
   (S.y2.add (S.vy2.mul cdt)).add (((chalf.mul a.2.neg).mul cdt).mul cdt),
   S.vx2, S.vy2⟩

/-- Interval version of `stepP2`. -/
def ivStep (S : IvP2) : IvP2 :=
  let a := ivA S.x1 S.y1 S.x2 S.y2
  let m := ivMoved S
  let b := ivA m.x1 m.y1 m.x2 m.y2
  ⟨m.x1, m.y1,
   S.vx1.add ((chalf.mul (a.1.add b.1)).mul cdt),
   S.vy1.add ((chalf.mul (a.2.add b.2)).mul cdt),
   m.x2, m.y2,
   S.vx2.add ((chalf.mul (a.1.neg.add b.1.neg)).mul cdt),
   S.vy2.add ((chalf.mul (a.2.neg.add b.2.neg)).mul cdt)⟩

/-- Side conditions for `ivStep`. -/
def ivStepOK (S : IvP2) : Prop :=
  ivForceOK S.x1 S.y1 S.x2 S.y2 ∧
  ivForceOK (ivMoved S).x1 (ivMoved S).y1 (ivMoved S).x2 (ivMoved S).y2

instance (S : IvP2) : Decidable (ivStepOK S) := by unfold ivStepOK; infer_instance

/-- Interval version of `EP2`. -/
def ivEnergy (S : IvP2) : Iv :=
  let c50 := chalf.mul (cIv (100 * SC))
  let ke1 := c50.mul ((S.vx1.mul S.vx1).add (S.vy1.mul S.vy1))
  let ke2 := c50.mul ((S.vx2.mul S.vx2).add (S.vy2.mul S.vy2))
  let u := S.x1.sub S.x2
  let v := S.y1.sub S.y2
  let d := ((u.mul u).add (v.mul v)).sqrtIv
  (ke1.add ke2).sub (cnum.mul d.inv)

/-- Side conditions for `ivEnergy`. -/
def ivEnergyOK (S : IvP2) : Prop :=
  let u := S.x1.sub S.x2
  let v := S.y1.sub S.y2
  let d2 := (u.mul u).add (v.mul v)
  sqrtOK d2 ∧ 0 < d2.sqrtIv.lo

instance (S : IvP2) : Decidable (ivEnergyOK S) := by unfold ivEnergyOK; infer_instance

/-- Interval enclosures of the ten-step run, verified below by `decide`. -/
def ivS0 : IvP2 :=
  ⟨⟨-1000000000000, -1000000000000⟩, ⟨0, 0⟩, ⟨0, 0⟩, ⟨1000000000000, 1000000000000⟩, ⟨1000000000000, 1000000000000⟩, ⟨0, 0⟩, ⟨0, 0⟩, ⟨-1000000000000, -1000000000000⟩⟩

def ivS1 : IvP2 :=
  ⟨⟨-999999875001, -999999875000⟩, ⟨100000000, 100000000⟩, ⟨2500000293, 2500000294⟩, ⟨999999874999, 999999875000⟩, ⟨999999875000, 999999875001⟩, ⟨-100000000, -100000000⟩, ⟨-2500000294, -2500000293⟩, ⟨-999999875000, -999999874999⟩⟩

def ivS2 : IvP2 :=
  ⟨⟨-999999500001, -999999499998⟩, ⟨199999974, 199999976⟩, ⟨5000001761, 5000001763⟩, ⟨999999499998, 999999500000⟩, ⟨999999499998, 999999500001⟩, ⟨-199999976, -199999974⟩, ⟨-5000001763, -5000001761⟩, ⟨-999999500000, -999999499998⟩⟩

def ivS3 : IvP2 :=
  ⟨⟨-999998875001, -999998874996⟩, ⟨299999897, 299999901⟩, ⟨7500005579, 7500005582⟩, ⟨999998874996, 999998874999⟩, ⟨999998874996, 999998875001⟩, ⟨-299999901, -299999897⟩, ⟨-7500005582, -7500005579⟩, ⟨-999998874999, -999998874996⟩⟩

def ivS4 : IvP2 :=
  ⟨⟨-999998000001, -999997999994⟩, ⟨399999746, 399999752⟩, ⟨10000012922, 10000012926⟩, ⟨999997999992, 999997999996⟩, ⟨999997999994, 999998000001⟩, ⟨-399999752, -399999746⟩, ⟨-10000012926, -10000012922⟩, ⟨-999997999996, -999997999992⟩⟩

def ivS5 : IvP2 :=
  ⟨⟨-999996875000, -999996874991⟩, ⟨499999494, 499999502⟩, ⟨12500024965, 12500024970⟩, ⟨999996874984, 999996874989⟩, ⟨999996874991, 999996875000⟩, ⟨-499999502, -499999494⟩, ⟨-12500024970, -12500024965⟩, ⟨-999996874989, -999996874984⟩⟩

def ivS6 : IvP2 :=
  ⟨⟨-999995499998, -999995499987⟩, ⟨599999118, 599999128⟩, ⟨15000042883, 15000042889⟩, ⟨999995499970, 999995499976⟩, ⟨999995499987, 999995499998⟩, ⟨-599999128, -599999118⟩, ⟨-15000042889, -15000042883⟩, ⟨-999995499976, -999995499970⟩⟩

def ivS7 : IvP2 :=
  ⟨⟨-999993874993, -999993874980⟩, ⟨699998591, 699998603⟩, ⟨17500067851, 17500067859⟩, ⟨999993874947, 999993874954⟩, ⟨999993874980, 999993874993⟩, ⟨-699998603, -699998591⟩, ⟨-17500067859, -17500067851⟩, ⟨-999993874954, -999993874947⟩⟩

def ivS8 : IvP2 :=
  ⟨⟨-999991999986, -999991999971⟩, ⟨799997890, 799997904⟩, ⟨20000101045, 20000101054⟩, ⟨999991999912, 999991999920⟩, ⟨999991999971, 999991999986⟩, ⟨-799997904, -799997890⟩, ⟨-20000101054, -20000101045⟩, ⟨-999991999920, -999991999912⟩⟩

def ivS9 : IvP2 :=
  ⟨⟨-999989874975, -999989874958⟩, ⟨899996988, 899997004⟩, ⟨22500143639, 22500143649⟩, ⟨999989874862, 999989874871⟩, ⟨999989874958, 999989874975⟩, ⟨-899997004, -899996988⟩, ⟨-22500143649, -22500143639⟩, ⟨-999989874871, -999989874862⟩⟩

def ivS10 : IvP2 :=
  ⟨⟨-999987499959, -999987499940⟩, ⟨999995862, 999995880⟩, ⟨25000196808, 25000196819⟩, ⟨999987499793, 999987499803⟩, ⟨999987499940, 999987499959⟩, ⟨-999995880, -999995862⟩, ⟨-25000196819, -25000196808⟩, ⟨-999987499803, -999987499793⟩⟩

def ivEfin : Iv := ⟨-4900000000061800, -4899999999949600⟩

/-! ### Basic facts about distance and force -/

theorem distance_to_comm (A B : Body) : A.distance_to B = B.distance_to A := by
  simp only [Body.distance_to]
  congr 1
  ring

theorem distance_to_pos (A B : Body) (h : A.position ≠ B.position) :
    0 < A.distance_to B := by
  simp only [Body.distance_to]
  apply Real.sqrt_pos.mpr
  rw [ne_eq, Prod.ext_iff, not_and_or] at h
  rcases h with hx | hy
  · have h1 : 0 < (A.position.1 - B.position.1) * (A.position.1 - B.position.1) :=
      mul_self_pos.mpr (sub_ne_zero.mpr hx)
    have h2 : 0 ≤ (A.position.2 - B.position.2) * (A.position.2 - B.position.2) :=
      mul_self_nonneg _
    linarith
  · have h1 : 0 ≤ (A.position.1 - B.position.1) * (A.position.1 - B.position.1) :=
      mul_self_nonneg _
    have h2 : 0 < (A.position.2 - B.position.2) * (A.position.2 - B.position.2) :=
      mul_self_pos.mpr (sub_ne_zero.mpr hy)
    linarith

theorem gravitational_force_antisymm (A B : Body) (g : ℝ) :
    B.gravitational_force A g = -(A.gravitational_force B g) := by
  simp only [Body.gravitational_force, distance_to_comm B A]
  rw [Prod.ext_iff]
  constructor <;> · simp; ring

/-! ### List-sum and getD helper lemmas -/

theorem getD_set_self {α : Type*} (l : List α) (i : ℕ) (a d : α) (h : i < l.length) :
    (l.set i a).getD i d = a := by
  rw [List.getD_eq_getElem?_getD, List.getElem?_set_self h, Option.getD_some]

theorem getD_set_ne {α : Type*} (l : List α) (i j : ℕ) (a d : α) (h : i ≠ j) :
    (l.set i a).getD j d = l.getD j d := by
  rw [List.getD_eq_getElem?_getD, List.getElem?_set_ne h, ← List.getD_eq_getElem?_getD]

theorem listSum_map_range {M : Type*} [AddCommMonoid M] (f : ℕ → M) (n : ℕ) :
    ((List.range n).map f).sum = ∑ i ∈ Finset.range n, f i := by
  induction n with
  | zero => simp
  | succ n ih =>
      rw [List.range_succ, List.map_append, List.sum_append, Finset.sum_range_succ, ih]
      simp

theorem listSum_map_range' {M : Type*} [AddCommMonoid M] (f : ℕ → M) (k : ℕ) :
    ∀ s : ℕ, ((List.range' s k).map f).sum = ∑ j ∈ Finset.Ico s (s + k), f j := by
  induction k with
  | zero => simp
  | succ k ih =>
      intro s
      rw [List.range'_succ, List.map_cons, List.sum_cons, ih (s + 1)]
      rw [Finset.sum_eq_sum_Ico_succ_bot (by omega : s < s + (k + 1))]
      have hs : s + 1 + k = s + (k + 1) := by omega
      rw [hs]

theorem listSum_flatMap {M : Type*} [AddCommMonoid M] (l : List ℕ) (f : ℕ → List M) :
    (l.flatMap f).sum = (l.map fun a => (f a).sum).sum := by
  induction l with
  | nil => rfl
  | cons a l ih => simp only [List.flatMap_cons, List.sum_append, List.map_cons,
      List.sum_cons, ih]

theorem listSum_map_pairIndices {M : Type*} [AddCommMonoid M] (h : ℕ × ℕ → M) (n : ℕ) :
    ((pairIndices n).map h).sum
      = ∑ i ∈ Finset.range n, ∑ j ∈ Finset.Ico (i + 1) n, h (i, j) := by
  unfold pairIndices
  rw [List.map_flatMap, listSum_flatMap, listSum_map_range]
  refine Finset.sum_congr rfl fun i hi => ?_
  rw [List.map_map, listSum_map_range']
  have : i + 1 + (n - (i + 1)) = n := by
    have := Finset.mem_range.mp hi
    omega
  rw [this]
  rfl

theorem mem_pairIndices {n : ℕ} {p : ℕ × ℕ} :
    p ∈ pairIndices n ↔ p.1 < p.2 ∧ p.2 < n := by
  unfold pairIndices
  simp only [List.mem_flatMap, List.mem_map, List.mem_range, List.mem_range'_1]
  constructor
  · rintro ⟨i, hi, j, ⟨hj1, hj2⟩, rfl⟩
    constructor <;> simp <;> omega
  · rintro ⟨h1, h2⟩
    exact ⟨p.1, by omega, p.2, ⟨by omega, by omega⟩, rfl⟩

theorem sum_pairFinset {M : Type*} [AddCommMonoid M] (n : ℕ) (h : ℕ × ℕ → M) :
    ∑ p ∈ pairFinset n, h p
      = ∑ i ∈ Finset.range n, ∑ j ∈ Finset.Ico (i + 1) n, h (i, j) := by
  rw [pairFinset, Finset.sum_filter, Finset.sum_product]
  refine Finset.sum_congr rfl fun i _ => ?_
  rw [← Finset.sum_filter]
  congr 1
  ext j
  simp only [Finset.mem_filter, Finset.mem_range, Finset.mem_Ico]
  omega

/-! ### Characterisation of the force-accumulation fold -/

theorem pairUpd_length (bodies : List Body) (g : ℝ) (F : List (ℝ × ℝ)) (p : ℕ × ℕ) :
    (pairUpd bodies g F p).length = F.length := by
  simp [pairUpd]

theorem pairUpd_getD (bodies : List Body) (g : ℝ) (F : List (ℝ × ℝ)) (p : ℕ × ℕ)
    (k : ℕ) (h1 : p.1 < F.length) (h2 : p.2 < F.length) (hne : p.1 ≠ p.2) :
    (pairUpd bodies g F p).getD k (0, 0) = F.getD k (0, 0) + pairContrib bodies g p k := by
  simp only [pairUpd]
  by_cases hk2 : k = p.2
  · subst hk2
    rw [getD_set_self _ _ _ _ (by rw [List.length_set]; exact h2)]
    rw [getD_set_ne _ _ _ _ _ hne]
    simp only [pairContrib, pairForce, vdiv, if_neg hne, if_pos rfl]
    rw [Prod.ext_iff]
    constructor <;> · simp; ring
  · by_cases hk1 : k = p.1
    · subst hk1
      rw [getD_set_ne _ _ _ _ _ (Ne.symm hne)]
      rw [getD_set_self _ _ _ _ h1]
      simp only [pairContrib, pairForce, vdiv, if_pos rfl, if_neg (Ne.symm hne)]
      rw [Prod.ext_iff]
      constructor <;> · simp
    · rw [getD_set_ne _ _ _ _ _ (Ne.symm hk2),
        getD_set_ne _ _ _ _ _ (Ne.symm hk1)]
      simp only [pairContrib, if_neg (Ne.symm hk1), if_neg (Ne.symm hk2)]
      simp

theorem foldl_pairUpd_length (bodies : List Body) (g : ℝ) (L : List (ℕ × ℕ)) :
    ∀ F : List (ℝ × ℝ), (L.foldl (pairUpd bodies g) F).length = F.length := by
  induction L with
  | nil => intro F; rfl
  | cons p L ih => intro F; rw [List.foldl_cons, ih, pairUpd_length]

theorem foldl_pairUpd_getD (bodies : List Body) (g : ℝ) (L : List (ℕ × ℕ)) (k : ℕ) :
    ∀ F : List (ℝ × ℝ),
      (∀ p ∈ L, p.1 < F.length ∧ p.2 < F.length ∧ p.1 ≠ p.2) →
      (L.foldl (pairUpd bodies g) F).getD k (0, 0)
        = F.getD k (0, 0) + (L.map fun p => pairContrib bodies g p k).sum := by
  induction L with
  | nil => intro F _; simp
  | cons p L ih =>
      intro F hL
      have hp := hL p (List.mem_cons_self p L)
      rw [List.foldl_cons, List.map_cons, List.sum_cons]
      rw [ih (pairUpd bodies g F p) (fun q hq => by
        rw [pairUpd_length]
        exact hL q (List.mem_cons_of_mem _ hq))]
      rw [pairUpd_getD bodies g F p k hp.1 hp.2.1 hp.2.2, add_assoc]

theorem accForces_length (bodies : List Body) (g : ℝ) :
    (accForces bodies g).length = bodies.length := by
  rw [accForces, foldl_pairUpd_length, List.length_replicate]

theorem getD_replicate_zero (n k : ℕ) :
    (List.replicate n ((0 : ℝ), (0 : ℝ))).getD k (0, 0) = (0, 0) := by
  rw [List.getD_eq_getElem?_getD, List.getElem?_replicate]
  by_cases h : k < n <;> simp [h]

/-- The force-accumulation loops compute exactly the pairwise sum described
by the spec. -/
theorem accForces_getD (bodies : List Body) (g : ℝ) (k : ℕ) :
    (accForces bodies g).getD k (0, 0) = accelSpec bodies g k := by
  rw [accForces, foldl_pairUpd_getD bodies g _ k _ (fun p hp => by
    rw [List.length_replicate]
    have := mem_pairIndices.mp hp
    exact ⟨by omega, by omega, by omega⟩)]
  rw [getD_replicate_zero, Prod.mk_zero_zero, zero_add, listSum_map_pairIndices,
    accelSpec, sum_pairFinset]

/-! ### The step function phase by phase -/

theorem posUpdate_eq_spec (bodies : List Body) (g dt : ℝ) :
    posUpdate bodies (accForces bodies g) dt = posUpdateSpec bodies g dt := by
  unfold posUpdate posUpdateSpec
  refine List.map_congr_left fun i _ => ?_
  rw [accForces_getD]

theorem velUpdate_eq_spec (old moved : List Body) (g dt : ℝ) :
    velUpdate moved (accForces old g) (accForces moved g) dt
      = velUpdateSpec old moved g dt := by
  unfold velUpdate velUpdateSpec
  refine List.map_congr_left fun i _ => ?_
  rw [accForces_getD, accForces_getD]

/-- `State::step` computes exactly the phase-by-phase velocity-Verlet update
described by the spec. -/
theorem step_eq_stepSpec (s : State) : s.step = stepSpec s := by
  show (let forces := accForces s.bodies s.g_constant
    let moved := posUpdate s.bodies forces s.time_step
    let forces_new := accForces moved s.g_constant
    { s with bodies := velUpdate moved forces forces_new s.time_step }) = stepSpec s
  simp only [stepSpec]
  rw [posUpdate_eq_spec, velUpdate_eq_spec]

theorem posUpdateSpec_length (bodies : List Body) (g dt : ℝ) :
    (posUpdateSpec bodies g dt).length = bodies.length := by
  simp [posUpdateSpec]

theorem velUpdateSpec_length (old moved : List Body) (g dt : ℝ) :
    (velUpdateSpec old moved g dt).length = moved.length := by
  simp [velUpdateSpec]

theorem posUpdateSpec_getD (bodies : List Body) (g dt : ℝ) (i : ℕ)
    (h : i < bodies.length) :
    (posUpdateSpec bodies g dt).getD i body0 =
      (let b := bodies.getD i body0
       let a := accelSpec bodies g i
       { b with
         position :=
           (b.position.1 + b.velocity.1 * dt + 0.5 * a.1 * dt * dt,
            b.position.2 + b.velocity.2 * dt + 0.5 * a.2 * dt * dt) }) := by
  unfold posUpdateSpec
  rw [List.getD_eq_getElem?_getD, List.getElem?_map, List.getElem?_range h]
  rfl

theorem velUpdateSpec_getD (old moved : List Body) (g dt : ℝ) (i : ℕ)
    (h : i < moved.length) :
    (velUpdateSpec old moved g dt).getD i body0 =
      (let b := moved.getD i body0
       let a := accelSpec old g i
       let a2 := accelSpec moved g i
       { b with
         velocity :=
           (b.velocity.1 + 0.5 * (a.1 + a2.1) * dt,
            b.velocity.2 + 0.5 * (a.2 + a2.2) * dt) }) := by
  unfold velUpdateSpec
  rw [List.getD_eq_getElem?_getD, List.getElem?_map, List.getElem?_range h]
  rfl

theorem map_eq_map_range {β : Type*} (h : Body → β) (l : List Body) :
    l.map h = (List.range l.length).map fun i => h (l.getD i body0) := by
  refine List.ext_getElem? fun n => ?_
  by_cases hn : n < l.length
  · rw [List.getElem?_map, List.getElem?_map, List.getElem?_range hn,
      List.getElem?_eq_getElem hn, Option.map_some', Option.map_some',
      List.getD_eq_getElem _ _ hn]
  · rw [List.getElem?_map, List.getElem?_map,
      List.getElem?_eq_none (by omega : l.length ≤ n),
      List.getElem?_eq_none (by simp; omega), Option.map_none', Option.map_none']

/-! ### Claim theorems: construction, force law, single-body update -/

/-- C1: the claim states that `Body::new` fails with an explicit error
whenever `mass <= 0` and never returns a usable body there.  The code
contradicts this: `Body::new` performs no validation and returns `Ok` with
the given fields (radius 1.0) for every mass.  This theorem evaluates the
code at the failing input `mass = -1`. -/
theorem body_new_accepts_nonpositive_mass :
    Body.new (-1) (0, 0) (0, 0)
      = Except.ok { mass := -1, position := (0, 0), velocity := (0, 0), radius := 1 } := by
  simp only [Body.new, Except.ok.injEq, Body.mk.injEq]
  norm_num

/-- C8: `Body::update` is semi-implicit Euler — it first sets the velocity to
`v + a*dt` and then the position to `p + v_new*dt` using the updated
velocity; in particular a body at the origin at rest with acceleration
(2, 1) and dt = 1 ends with velocity (2, 1) and position (2, 1) exactly. -/
theorem body_update_semi_implicit :
    (∀ (b : Body) (acceleration : ℝ × ℝ) (dt : ℝ),
      b.update acceleration dt =
        { b with
          velocity :=
            (b.velocity.1 + acceleration.1 * dt, b.velocity.2 + acceleration.2 * dt)
          position :=
            (b.position.1 + (b.velocity.1 + acceleration.1 * dt) * dt,
             b.position.2 + (b.velocity.2 + acceleration.2 * dt) * dt) }) ∧
    (Body.mk 1 (0, 0) (0, 0) 1).update (2, 1) 1 = Body.mk 1 (2, 1) (2, 1) 1 := by
  constructor
  · intro b a dt
    rfl
  · simp only [Body.update, Body.mk.injEq, Prod.mk.injEq]
    norm_num

/-- C4: Newton's third law — for bodies at distinct positions the force on A
from B is the componentwise negation of the force on B from A. -/
theorem gravitational_force_third_law (A B : Body) (g : ℝ)
    (_h : A.position ≠ B.position) :
    A.gravitational_force B g = -(B.gravitational_force A g) := by
  rw [gravitational_force_antisymm A B g, neg_neg]

/-- Witness for C4 at the two bodies of the repository's symmetry test. -/
theorem gravitational_force_third_law_witness :
    (Body.mk 100 (0, 0) (0, 0) 1).position ≠ (Body.mk 200 (1, 0) (0, 0) 1).position ∧
    (Body.mk 100 (0, 0) (0, 0) 1).gravitational_force (Body.mk 200 (1, 0) (0, 0) 1) 1
      = -((Body.mk 200 (1, 0) (0, 0) 1).gravitational_force (Body.mk 100 (0, 0) (0, 0) 1) 1) := by
  have h : (Body.mk (100 : ℝ) (0, 0) (0, 0) 1).position
      ≠ (Body.mk (200 : ℝ) (1, 0) (0, 0) 1).position := by
    norm_num [Prod.ext_iff]
  exact ⟨h, gravitational_force_third_law _ _ _ h⟩

/-- C5: for bodies at distinct positions (positive masses, non-negative g)
the force returned by `gravitational_force` has magnitude
`g*m1*m2/d^2` and is directed along the unit vector from `self`'s position
toward `other`'s position. -/
theorem gravitational_force_magnitude (A B : Body) (g : ℝ)
    (hpos : A.position ≠ B.position) (hmA : 0 < A.mass) (hmB : 0 < B.mass)
    (hg : 0 ≤ g) :
    Real.sqrt ((A.gravitational_force B g).1 ^ 2 + (A.gravitational_force B g).2 ^ 2)
      = g * A.mass * B.mass / A.distance_to B ^ 2 ∧
    A.gravitational_force B g
      = (g * A.mass * B.mass / A.distance_to B ^ 2
            * ((B.position.1 - A.position.1) / A.distance_to B),
         g * A.mass * B.mass / A.distance_to B ^ 2
            * ((B.position.2 - A.position.2) / A.distance_to B)) := by
  have hd : 0 < A.distance_to B := distance_to_pos A B hpos
  have hd0 : A.distance_to B ≠ 0 := ne_of_gt hd
  have harg : (0 : ℝ) ≤ (A.position.1 - B.position.1) * (A.position.1 - B.position.1)
      + (A.position.2 - B.position.2) * (A.position.2 - B.position.2) :=
    add_nonneg (mul_self_nonneg _) (mul_self_nonneg _)
  have hd2 : A.distance_to B ^ 2
      = (A.position.1 - B.position.1) * (A.position.1 - B.position.1)
        + (A.position.2 - B.position.2) * (A.position.2 - B.position.2) := by
    simp only [Body.distance_to]
    exact Real.sq_sqrt harg
  have hd2' : (B.position.1 - A.position.1) * (B.position.1 - A.position.1)
      + (B.position.2 - A.position.2) * (B.position.2 - A.position.2)
      = A.distance_to B ^ 2 := by
    rw [hd2]; ring
  have hF1 : (A.gravitational_force B g).1
      = g * A.mass * B.mass / (A.distance_to B * A.distance_to B)
          * (B.position.1 - A.position.1) / A.distance_to B := rfl
  have hF2 : (A.gravitational_force B g).2
      = g * A.mass * B.mass / (A.distance_to B * A.distance_to B)
          * (B.position.2 - A.position.2) / A.distance_to B := rfl
  have hc : 0 ≤ g * A.mass * B.mass / A.distance_to B ^ 2 :=
    div_nonneg (mul_nonneg (mul_nonneg hg hmA.le) hmB.le) (sq_nonneg _)
  constructor
  · rw [hF1, hF2]
    have hkey : (g * A.mass * B.mass / (A.distance_to B * A.distance_to B)
          * (B.position.1 - A.position.1) / A.distance_to B) ^ 2
        + (g * A.mass * B.mass / (A.distance_to B * A.distance_to B)
          * (B.position.2 - A.position.2) / A.distance_to B) ^ 2
        = (g * A.mass * B.mass / (A.distance_to B * A.distance_to B) / A.distance_to B) ^ 2
          * ((B.position.1 - A.position.1) * (B.position.1 - A.position.1)
            + (B.position.2 - A.position.2) * (B.position.2 - A.position.2)) := by
      ring
    rw [hkey, hd2']
    have hsq : (g * A.mass * B.mass / (A.distance_to B * A.distance_to B) / A.distance_to B) ^ 2
        * A.distance_to B ^ 2
        = (g * A.mass * B.mass / A.distance_to B ^ 2) ^ 2 := by
      field_simp
      ring
    rw [hsq, Real.sqrt_sq hc]
  · rw [Prod.ext_iff]
    constructor
    · rw [hF1, pow_two, mul_div_assoc]
    · rw [hF2, pow_two, mul_div_assoc]

/-- Witness for C5: masses 100 and 200 at distance 2 with g = 1 — the
magnitude is 5000 and the force on the first body points toward the second
(positive x direction). -/
theorem gravitational_force_magnitude_witness :
    Real.sqrt (((Body.mk 100 (0, 0) (0, 0) 1).gravitational_force
          (Body.mk 200 (2, 0) (0, 0) 1) 1).1 ^ 2
        + ((Body.mk 100 (0, 0) (0, 0) 1).gravitational_force
          (Body.mk 200 (2, 0) (0, 0) 1) 1).2 ^ 2) = 5000 ∧
    0 < ((Body.mk 100 (0, 0) (0, 0) 1).gravitational_force
          (Body.mk 200 (2, 0) (0, 0) 1) 1).1 ∧
    ((Body.mk 100 (0, 0) (0, 0) 1).gravitational_force
          (Body.mk 200 (2, 0) (0, 0) 1) 1).2 = 0 := by
  have hth := gravitational_force_magnitude (Body.mk 100 (0, 0) (0, 0) 1)
    (Body.mk 200 (2, 0) (0, 0) 1) 1
    (by norm_num [Prod.ext_iff]) (by norm_num) (by norm_num) (by norm_num)
  have hdist : (Body.mk (100 : ℝ) (0, 0) (0, 0) 1).distance_to
      (Body.mk (200 : ℝ) (2, 0) (0, 0) 1) = 2 := by
    simp only [Body.distance_to]
    norm_num
    rw [show (4 : ℝ) = 2 ^ 2 by norm_num, Real.sqrt_sq (by norm_num : (0 : ℝ) ≤ 2)]
  refine ⟨?_, ?_, ?_⟩
  · rw [hth.1, hdist]
    norm_num
  · rw [hth.2]
    rw [hdist]
    norm_num
  · rw [hth.2]
    rw [hdist]
    norm_num

/-- C2: for every simulation state (pairwise-distinct positions, positive
masses) one call to `step` performs velocity-Verlet in four phases:
pairwise accumulation of accelerations at time t (one force evaluation per
unordered pair, `+F/m_i` and `-F/m_j`), then all position updates
`x + v*dt + 0.5*a*dt^2`, then — only after all positions are updated —
re-accumulation at the new positions, then all velocity updates
`v + 0.5*(a_old + a_new)*dt`.  `stepSpec` is that phase-by-phase
description. -/
theorem step_four_phase_verlet (s : State)
    (_hpos : s.bodies.Pairwise fun a b => a.position ≠ b.position)
    (_hm : ∀ b ∈ s.bodies, 0 < b.mass) :
    s.step = stepSpec s :=
  step_eq_stepSpec s

/-- Witness for C2 at the hardcoded two-body scenario of `State::new`. -/
theorem step_four_phase_verlet_witness :
    (State.new.bodies.Pairwise fun a b => a.position ≠ b.position) ∧
    (∀ b ∈ State.new.bodies, 0 < b.mass) ∧
    State.new.step = stepSpec State.new := by
  have h1 : State.new.bodies.Pairwise fun a b => a.position ≠ b.position := by
    simp only [State.new, Body.new, Except.toOption, Option.getD_some,
      List.pairwise_cons, List.mem_singleton]
    refine ⟨fun b hb => ?_, fun b hb => absurd hb (List.not_mem_nil b), List.Pairwise.nil⟩
    subst hb
    norm_num [Prod.ext_iff]
  have h2 : ∀ b ∈ State.new.bodies, 0 < b.mass := by
    intro b hb
    simp only [State.new, Body.new, Except.toOption, Option.getD_some,
      List.mem_cons, List.mem_singleton, List.not_mem_nil, or_false] at hb
    rcases hb with rfl | rfl <;> norm_num
  exact ⟨h1, h2, step_four_phase_verlet State.new h1 h2⟩

/-! ### Structure preservation through the phases -/

theorem velUpdateSpec_map_mass (old moved : List Body) (g dt : ℝ) :
    (velUpdateSpec old moved g dt).map Body.mass = moved.map Body.mass := by
  rw [map_eq_map_range Body.mass moved, velUpdateSpec, List.map_map]
  rfl

theorem velUpdateSpec_map_radius (old moved : List Body) (g dt : ℝ) :
    (velUpdateSpec old moved g dt).map Body.radius = moved.map Body.radius := by
  rw [map_eq_map_range Body.radius moved, velUpdateSpec, List.map_map]
  rfl

theorem posUpdateSpec_map_mass (bodies : List Body) (g dt : ℝ) :
    (posUpdateSpec bodies g dt).map Body.mass = bodies.map Body.mass := by
  rw [map_eq_map_range Body.mass bodies, posUpdateSpec, List.map_map]
  rfl

theorem posUpdateSpec_map_radius (bodies : List Body) (g dt : ℝ) :
    (posUpdateSpec bodies g dt).map Body.radius = bodies.map Body.radius := by
  rw [map_eq_map_range Body.radius bodies, posUpdateSpec, List.map_map]
  rfl

theorem posUpdateSpec_map_velocity (bodies : List Body) (g dt : ℝ) :
    (posUpdateSpec bodies g dt).map Body.velocity = bodies.map Body.velocity := by
  rw [map_eq_map_range Body.velocity bodies, posUpdateSpec, List.map_map]
  rfl

/-- C9: `step` mutates only positions and velocities — the number and order
of bodies (index-aligned equality of the mass and radius lists), every
body's mass and radius, and the constants `g_constant` and `time_step` are
all unchanged. -/
theorem step_frame_effects (s : State) :
    (s.step).bodies.length = s.bodies.length ∧
    (s.step).bodies.map Body.mass = s.bodies.map Body.mass ∧
    (s.step).bodies.map Body.radius = s.bodies.map Body.radius ∧
    (s.step).g_constant = s.g_constant ∧
    (s.step).time_step = s.time_step := by
  rw [step_eq_stepSpec]
  refine ⟨?_, ?_, ?_, rfl, rfl⟩
  · show (velUpdateSpec _ _ _ _).length = _
    rw [velUpdateSpec_length, posUpdateSpec_length]
  · show (velUpdateSpec _ _ _ _).map Body.mass = _
    rw [velUpdateSpec_map_mass, posUpdateSpec_map_mass]
  · show (velUpdateSpec _ _ _ _).map Body.radius = _
    rw [velUpdateSpec_map_radius, posUpdateSpec_map_radius]

/-! ### Degenerate collections: fewer than two bodies -/

theorem pairFinset_empty_of_lt_two {n : ℕ} (h : n < 2) : pairFinset n = ∅ := by
  refine Finset.eq_empty_of_forall_not_mem fun p hp => ?_
  simp only [pairFinset, Finset.mem_filter, Finset.mem_product, Finset.mem_range] at hp
  omega

theorem accelSpec_eq_zero_of_lt_two (bodies : List Body) (g : ℝ) (k : ℕ)
    (h : bodies.length < 2) : accelSpec bodies g k = 0 := by
  rw [accelSpec, pairFinset_empty_of_lt_two h, Finset.sum_empty]

/-- C10: with fewer than two bodies there are no pairs, so `step` leaves
every velocity unchanged and advances every position by `velocity * dt`
exactly; with no bodies at all, `step` changes nothing. -/
theorem step_small_collections (s : State) (h : s.bodies.length < 2) :
    ((s.step).bodies
      = s.bodies.map fun b =>
          { b with
            position := (b.position.1 + b.velocity.1 * s.time_step,
                         b.position.2 + b.velocity.2 * s.time_step) }) ∧
    (s.bodies = [] → s.step = s) := by
  have hmoved : (posUpdateSpec s.bodies s.g_constant s.time_step).length
      = s.bodies.length := posUpdateSpec_length _ _ _
  constructor
  · rw [step_eq_stepSpec]
    show velUpdateSpec _ _ _ _ = _
    rw [map_eq_map_range (fun b =>
      ({ b with
         position := (b.position.1 + b.velocity.1 * s.time_step,
                      b.position.2 + b.velocity.2 * s.time_step) } : Body)) s.bodies]
    rw [velUpdateSpec, hmoved]
    refine List.map_congr_left fun i hi => ?_
    have hin : i < s.bodies.length := List.mem_range.mp hi
    rw [accelSpec_eq_zero_of_lt_two _ _ _ h,
      accelSpec_eq_zero_of_lt_two _ _ _ (by rw [hmoved]; exact h),
      posUpdateSpec_getD _ _ _ _ hin,
      accelSpec_eq_zero_of_lt_two _ _ _ h]
    simp
  · intro hnil
    rcases s with ⟨bodies, g, dt⟩
    simp only at hnil
    subst hnil
    rw [step_eq_stepSpec]
    simp [stepSpec, velUpdateSpec, posUpdateSpec]

/-- Witness for C10 at a concrete one-body state. -/
theorem step_small_collections_witness :
    (State.mk [Body.mk 1 (0, 0) (1, 2) 1] 1 1).bodies.length < 2 ∧
    ((State.mk [Body.mk 1 (0, 0) (1, 2) 1] 1 1).step.bodies
      = (State.mk [Body.mk 1 (0, 0) (1, 2) 1] 1 1).bodies.map fun b =>
          { b with
            position :=
              (b.position.1 + b.velocity.1 * (State.mk [Body.mk 1 (0, 0) (1, 2) 1] 1 1).time_step,
               b.position.2 + b.velocity.2 * (State.mk [Body.mk 1 (0, 0) (1, 2) 1] 1 1).time_step) }) := by
  have hlen : (State.mk [Body.mk (1 : ℝ) (0, 0) (1, 2) 1] 1 1).bodies.length < 2 := by
    simp
  exact ⟨hlen, (step_small_collections _ hlen).1⟩

/-! ### Energy queries -/

theorem foldl_add_map (l : List Body) (h : Body → ℝ) :
    ∀ c : ℝ, l.foldl (fun acc x => acc + h x) c = c + (l.map h).sum := by
  induction l with
  | nil => intro c; simp
  | cons b l ih =>
      intro c
      rw [List.foldl_cons, ih, List.map_cons, List.sum_cons]
      ring

theorem foldl_sub_map {α : Type*} (l : List α) (h : α → ℝ) :
    ∀ c : ℝ, l.foldl (fun acc x => acc - h x) c = c - (l.map h).sum := by
  induction l with
  | nil => intro c; simp
  | cons b l ih =>
      intro c
      rw [List.foldl_cons, ih, List.map_cons, List.sum_cons]
      ring

theorem total_kinetic_eq_spec (s : State) : s.total_kinetic_energy = kineticSpec s := by
  rw [State.total_kinetic_energy, foldl_add_map, zero_add, kineticSpec]
  congr 1
  refine List.map_congr_left fun b _ => ?_
  rw [Body.get_kinetic_energy]
  ring

theorem total_potential_eq_spec (s : State) :
    s.total_potential_energy = potentialSpec s := by
  rw [State.total_potential_energy, foldl_sub_map, zero_sub, potentialSpec,
    sum_pairFinset, listSum_map_pairIndices]
  simp only [Finset.sum_neg_distrib]

/-- C6: `total_energy` is `total_kinetic_energy + total_potential_energy`,
the kinetic energy is the canonical `0.5*m*|v|^2` sum (with the 0.5
coefficient), and the potential energy is the sum over unordered pairs
`i < j` of `-g*m_i*m_j/d_ij`. -/
theorem total_energy_decomposition (s : State)
    (_hpos : s.bodies.Pairwise fun a b => a.position ≠ b.position) :
    s.total_energy = s.total_kinetic_energy + s.total_potential_energy ∧
    s.total_kinetic_energy = kineticSpec s ∧
    s.total_potential_energy = potentialSpec s :=
  ⟨rfl, total_kinetic_eq_spec s, total_potential_eq_spec s⟩

/-- Witness for C6 at the hardcoded two-body scenario of `State::new`. -/
theorem total_energy_decomposition_witness :
    (State.new.bodies.Pairwise fun a b => a.position ≠ b.position) ∧
    State.new.total_energy
      = State.new.total_kinetic_energy + State.new.total_potential_energy ∧
    State.new.total_kinetic_energy = kineticSpec State.new ∧
    State.new.total_potential_energy = potentialSpec State.new := by
  have h1 : State.new.bodies.Pairwise fun a b => a.position ≠ b.position := by
    simp only [State.new, Body.new, Except.toOption, Option.getD_some,
      List.pairwise_cons, List.mem_singleton]
    refine ⟨fun b hb => ?_, fun b hb => absurd hb (List.not_mem_nil b), List.Pairwise.nil⟩
    subst hb
    norm_num [Prod.ext_iff]
  exact ⟨h1, total_energy_decomposition State.new h1⟩

/-! ### Momentum conservation -/

theorem mem_pairFinset {n : ℕ} {p : ℕ × ℕ} :
    p ∈ pairFinset n ↔ p.1 < p.2 ∧ p.2 < n := by
  simp only [pairFinset, Finset.mem_filter, Finset.mem_product, Finset.mem_range]
  omega

theorem getD_mem_of_lt (l : List Body) (i : ℕ) (h : i < l.length) :
    l.getD i body0 ∈ l := by
  rw [List.getD_eq_getElem _ _ h]
  exact List.getElem_mem h

theorem sum_mass_accelSpec_fst (bodies : List Body) (g : ℝ)
    (hm : ∀ b ∈ bodies, b.mass ≠ 0) :
    ∑ i ∈ Finset.range bodies.length,
      (bodies.getD i body0).mass * (accelSpec bodies g i).1 = 0 := by
  simp only [accelSpec, Prod.fst_sum, Finset.mul_sum]
  rw [Finset.sum_comm]
  refine Finset.sum_eq_zero fun p hp => ?_
  obtain ⟨h12, h2n⟩ := mem_pairFinset.mp hp
  have h1n : p.1 < bodies.length := lt_trans h12 h2n
  have hm1 : (bodies.getD p.1 body0).mass ≠ 0 := hm _ (getD_mem_of_lt _ _ h1n)
  have hm2 : (bodies.getD p.2 body0).mass ≠ 0 := hm _ (getD_mem_of_lt _ _ h2n)
  simp only [pairContrib, vdiv, Prod.fst_sub, apply_ite Prod.fst, Prod.fst_zero]
  simp only [mul_sub, mul_ite, mul_zero]
  rw [Finset.sum_sub_distrib, Finset.sum_ite_eq, Finset.sum_ite_eq]
  simp only [Finset.mem_range, h1n, h2n, if_true]
  rw [mul_div_cancel₀ _ hm1, mul_div_cancel₀ _ hm2, sub_self]

theorem sum_mass_accelSpec_snd (bodies : List Body) (g : ℝ)
    (hm : ∀ b ∈ bodies, b.mass ≠ 0) :
    ∑ i ∈ Finset.range bodies.length,
      (bodies.getD i body0).mass * (accelSpec bodies g i).2 = 0 := by
  simp only [accelSpec, Prod.snd_sum, Finset.mul_sum]
  rw [Finset.sum_comm]
  refine Finset.sum_eq_zero fun p hp => ?_
  obtain ⟨h12, h2n⟩ := mem_pairFinset.mp hp
  have h1n : p.1 < bodies.length := lt_trans h12 h2n
  have hm1 : (bodies.getD p.1 body0).mass ≠ 0 := hm _ (getD_mem_of_lt _ _ h1n)
  have hm2 : (bodies.getD p.2 body0).mass ≠ 0 := hm _ (getD_mem_of_lt _ _ h2n)
  simp only [pairContrib, vdiv, Prod.snd_sub, apply_ite Prod.snd, Prod.snd_zero]
  simp only [mul_sub, mul_ite, mul_zero]
  rw [Finset.sum_sub_distrib, Finset.sum_ite_eq, Finset.sum_ite_eq]
  simp only [Finset.mem_range, h1n, h2n, if_true]
  rw [mul_div_cancel₀ _ hm1, mul_div_cancel₀ _ hm2, sub_self]

theorem posUpdateSpec_pos_mass (bodies : List Body) (g dt : ℝ)
    (hm : ∀ b ∈ bodies, 0 < b.mass) :
    ∀ b ∈ posUpdateSpec bodies g dt, 0 < b.mass := by
  intro b hb
  simp only [posUpdateSpec, List.mem_map, List.mem_range] at hb
  obtain ⟨i, hi, rfl⟩ := hb
  show 0 < (bodies.getD i body0).mass
  exact hm _ (getD_mem_of_lt _ _ hi)

theorem get_linear_momentum_fst (b : Body) :
    b.get_linear_momentum.1 = b.mass * b.velocity.1 := rfl

theorem get_linear_momentum_snd (b : Body) :
    b.get_linear_momentum.2 = b.mass * b.velocity.2 := rfl

/-- C3: one call to `step` leaves the total linear momentum (the sum over
bodies of `get_linear_momentum`, componentwise) exactly unchanged under the
exact real arithmetic of the embedding, because the accumulated internal
forces cancel pairwise. -/
theorem step_conserves_momentum (s : State)
    (_hpos : s.bodies.Pairwise fun a b => a.position ≠ b.position)
    (hm : ∀ b ∈ s.bodies, 0 < b.mass) :
    ((s.step).bodies.map Body.get_linear_momentum).sum
      = (s.bodies.map Body.get_linear_momentum).sum := by
  rw [step_eq_stepSpec]
  have hmlen : (posUpdateSpec s.bodies s.g_constant s.time_step).length
      = s.bodies.length := posUpdateSpec_length _ _ _
  have hm' : ∀ b ∈ posUpdateSpec s.bodies s.g_constant s.time_step, b.mass ≠ 0 :=
    fun b hb => ne_of_gt (posUpdateSpec_pos_mass _ _ _ hm b hb)
  have hm0 : ∀ b ∈ s.bodies, b.mass ≠ 0 := fun b hb => ne_of_gt (hm b hb)
  show ((velUpdateSpec s.bodies (posUpdateSpec s.bodies s.g_constant s.time_step)
      s.g_constant s.time_step).map Body.get_linear_momentum).sum = _
  rw [map_eq_map_range Body.get_linear_momentum, listSum_map_range,
    velUpdateSpec_length, hmlen]
  rw [map_eq_map_range Body.get_linear_momentum s.bodies, listSum_map_range]
  have hpoint : ∀ i ∈ Finset.range s.bodies.length,
      Body.get_linear_momentum
        ((velUpdateSpec s.bodies (posUpdateSpec s.bodies s.g_constant s.time_step)
          s.g_constant s.time_step).getD i body0)
      = ((s.bodies.getD i body0).mass * (s.bodies.getD i body0).velocity.1
            + 0.5 * s.time_step
              * ((s.bodies.getD i body0).mass * (accelSpec s.bodies s.g_constant i).1)
            + 0.5 * s.time_step
              * ((s.bodies.getD i body0).mass
                * (accelSpec (posUpdateSpec s.bodies s.g_constant s.time_step)
                    s.g_constant i).1),
         (s.bodies.getD i body0).mass * (s.bodies.getD i body0).velocity.2
            + 0.5 * s.time_step
              * ((s.bodies.getD i body0).mass * (accelSpec s.bodies s.g_constant i).2)
            + 0.5 * s.time_step
              * ((s.bodies.getD i body0).mass
                * (accelSpec (posUpdateSpec s.bodies s.g_constant s.time_step)
                    s.g_constant i).2)) := by
    intro i hi
    have hin : i < s.bodies.length := Finset.mem_range.mp hi
    rw [velUpdateSpec_getD _ _ _ _ _ (by rw [hmlen]; exact hin),
      posUpdateSpec_getD _ _ _ _ hin]
    show ((s.bodies.getD i body0).mass
          * ((s.bodies.getD i body0).velocity.1
            + 0.5 * ((accelSpec s.bodies s.g_constant i).1
              + (accelSpec (posUpdateSpec s.bodies s.g_constant s.time_step)
                  s.g_constant i).1) * s.time_step),
        (s.bodies.getD i body0).mass
          * ((s.bodies.getD i body0).velocity.2
            + 0.5 * ((accelSpec s.bodies s.g_constant i).2
              + (accelSpec (posUpdateSpec s.bodies s.g_constant s.time_step)
                  s.g_constant i).2) * s.time_step)) = _
    simp only [Prod.mk.injEq]
    constructor <;> ring
  rw [Finset.sum_congr rfl hpoint]
  have hmafst : ∑ i ∈ Finset.range s.bodies.length,
      (s.bodies.getD i body0).mass
        * (accelSpec (posUpdateSpec s.bodies s.g_constant s.time_step) s.g_constant i).1
      = 0 := by
    have h0 := sum_mass_accelSpec_fst
      (posUpdateSpec s.bodies s.g_constant s.time_step) s.g_constant hm'
    rw [hmlen] at h0
    rw [← h0]
    refine Finset.sum_congr rfl fun i hi => ?_
    rw [posUpdateSpec_getD _ _ _ _ (Finset.mem_range.mp hi)]
  have hmasnd : ∑ i ∈ Finset.range s.bodies.length,
      (s.bodies.getD i body0).mass
        * (accelSpec (posUpdateSpec s.bodies s.g_constant s.time_step) s.g_constant i).2
      = 0 := by
    have h0 := sum_mass_accelSpec_snd
      (posUpdateSpec s.bodies s.g_constant s.time_step) s.g_constant hm'
    rw [hmlen] at h0
    rw [← h0]
    refine Finset.sum_congr rfl fun i hi => ?_
    rw [posUpdateSpec_getD _ _ _ _ (Finset.mem_range.mp hi)]
  refine Prod.ext_iff.mpr ⟨?_, ?_⟩
  · rw [Prod.fst_sum, Prod.fst_sum]
    simp only [get_linear_momentum_fst]
    rw [Finset.sum_add_distrib, Finset.sum_add_distrib, ← Finset.mul_sum,
      ← Finset.mul_sum, sum_mass_accelSpec_fst s.bodies s.g_constant hm0, hmafst,
      mul_zero, add_zero, add_zero]
  · rw [Prod.snd_sum, Prod.snd_sum]
    simp only [get_linear_momentum_snd]
    rw [Finset.sum_add_distrib, Finset.sum_add_distrib, ← Finset.mul_sum,
      ← Finset.mul_sum, sum_mass_accelSpec_snd s.bodies s.g_constant hm0, hmasnd,
      mul_zero, add_zero, add_zero]

/-- Witness for C3 at the hardcoded two-body scenario of `State::new`. -/
theorem step_conserves_momentum_witness :
    (State.new.bodies.Pairwise fun a b => a.position ≠ b.position) ∧
    (∀ b ∈ State.new.bodies, 0 < b.mass) ∧
    ((State.new.step).bodies.map Body.get_linear_momentum).sum
      = (State.new.bodies.map Body.get_linear_momentum).sum := by
  have h1 : State.new.bodies.Pairwise fun a b => a.position ≠ b.position := by
    simp only [State.new, Body.new, Except.toOption, Option.getD_some,
      List.pairwise_cons, List.mem_singleton]
    refine ⟨fun b hb => ?_, fun b hb => absurd hb (List.not_mem_nil b), List.Pairwise.nil⟩
    subst hb
    norm_num [Prod.ext_iff]
  have h2 : ∀ b ∈ State.new.bodies, 0 < b.mass := by
    intro b hb
    simp only [State.new, Body.new, Except.toOption, Option.getD_some,
      List.mem_cons, List.mem_singleton, List.not_mem_nil, or_false] at hb
    rcases hb with rfl | rfl <;> norm_num
  exact ⟨h1, h2, step_conserves_momentum State.new h1 h2⟩

/-! ### Soundness of the interval operations -/

theorem SC_pos : (0 : ℤ) < SC := by norm_num [SC]

theorem SC_posR : (0 : ℝ) < (SC : ℝ) := by exact_mod_cast SC_pos

theorem fdiv_le_int (m b : ℤ) (hb : 0 < b) : b * Int.fdiv m b ≤ m := by
  have h := Int.fdiv_add_fmod m b
  have h2 : 0 ≤ m.fmod b := Int.fmod_nonneg' m hb
  linarith

theorem le_cdiv_int (m b : ℤ) (hb : 0 < b) : m ≤ b * cdivS m b := by
  have h := fdiv_le_int (-m) b hb
  unfold cdivS
  rw [mul_neg]
  linarith

theorem fdiv_le_target {m b : ℤ} (hb : 0 < b) {t : ℝ} (h : (m : ℝ) ≤ t * (b : ℝ)) :
    ((Int.fdiv m b : ℤ) : ℝ) ≤ t := by
  have hf := fdiv_le_int m b hb
  have hbR : (0 : ℝ) < (b : ℝ) := by exact_mod_cast hb
  have hfR : (b : ℝ) * ((Int.fdiv m b : ℤ) : ℝ) ≤ (m : ℝ) := by exact_mod_cast hf
  have h2 : (b : ℝ) * ((Int.fdiv m b : ℤ) : ℝ) ≤ (b : ℝ) * t := by
    have : t * (b : ℝ) = (b : ℝ) * t := by ring
    linarith [this ▸ h]
  exact le_of_mul_le_mul_left h2 hbR

theorem target_le_cdiv {m b : ℤ} (hb : 0 < b) {t : ℝ} (h : t * (b : ℝ) ≤ (m : ℝ)) :
    t ≤ ((cdivS m b : ℤ) : ℝ) := by
  have hf := le_cdiv_int m b hb
  have hbR : (0 : ℝ) < (b : ℝ) := by exact_mod_cast hb
  have hfR : (m : ℝ) ≤ (b : ℝ) * ((cdivS m b : ℤ) : ℝ) := by exact_mod_cast hf
  have h2 : (b : ℝ) * t ≤ (b : ℝ) * ((cdivS m b : ℤ) : ℝ) := by
    have : t * (b : ℝ) = (b : ℝ) * t := by ring
    linarith [this ▸ h]
  exact le_of_mul_le_mul_left h2 hbR

theorem mul_le_four (x y a b c d : ℝ) (hxa : a ≤ x) (hxb : x ≤ b) (hyc : c ≤ y)
    (hyd : y ≤ d) :
    x * y ≤ max (max (a * c) (a * d)) (max (b * c) (b * d)) := by
  rcases le_total 0 y with hy | hy
  · have hstep : x * y ≤ b * y := mul_le_mul_of_nonneg_right hxb hy
    rcases le_total 0 b with hb | hb
    · have hstep2 : b * y ≤ b * d := mul_le_mul_of_nonneg_left hyd hb
      exact hstep.trans (hstep2.trans (le_max_of_le_right (le_max_right _ _)))
    · have hstep2 : b * y ≤ b * c := mul_le_mul_of_nonpos_left hyc hb
      exact hstep.trans (hstep2.trans (le_max_of_le_right (le_max_left _ _)))
  · have hstep : x * y ≤ a * y := mul_le_mul_of_nonpos_right hxa hy
    rcases le_total 0 a with ha | ha
    · have hstep2 : a * y ≤ a * d := mul_le_mul_of_nonneg_left hyd ha
      exact hstep.trans (hstep2.trans (le_max_of_le_left (le_max_right _ _)))
    · have hstep2 : a * y ≤ a * c := mul_le_mul_of_nonpos_left hyc ha
      exact hstep.trans (hstep2.trans (le_max_of_le_left (le_max_left _ _)))

theorem four_le_mul (x y a b c d : ℝ) (hxa : a ≤ x) (hxb : x ≤ b) (hyc : c ≤ y)
    (hyd : y ≤ d) :
    min (min (a * c) (a * d)) (min (b * c) (b * d)) ≤ x * y := by
  rcases le_total 0 y with hy | hy
  · have hstep : a * y ≤ x * y := mul_le_mul_of_nonneg_right hxa hy
    rcases le_total 0 a with ha | ha
    · have hstep2 : a * c ≤ a * y := mul_le_mul_of_nonneg_left hyc ha
      exact le_trans (min_le_of_left_le (min_le_left _ _)) (hstep2.trans hstep)
    · have hstep2 : a * d ≤ a * y := mul_le_mul_of_nonpos_left hyd ha
      exact le_trans (min_le_of_left_le (min_le_right _ _)) (hstep2.trans hstep)
  · have hstep : b * y ≤ x * y := mul_le_mul_of_nonpos_right hxb hy
    rcases le_total 0 b with hb | hb
    · have hstep2 : b * c ≤ b * y := mul_le_mul_of_nonneg_left hyc hb
      exact le_trans (min_le_of_right_le (min_le_left _ _)) (hstep2.trans hstep)
    · have hstep2 : b * d ≤ b * y := mul_le_mul_of_nonpos_left hyd hb
      exact le_trans (min_le_of_right_le (min_le_right _ _)) (hstep2.trans hstep)

theorem memIv_add {x y : ℝ} {a b : Iv} (hx : memIv x a) (hy : memIv y b) :
    memIv (x + y) (Iv.add a b) := by
  obtain ⟨h1, h2⟩ := hx
  obtain ⟨h3, h4⟩ := hy
  have hxy : (x + y) * (SC : ℝ) = x * SC + y * SC := by ring
  unfold memIv Iv.add
  push_cast
  rw [hxy]
  constructor <;> linarith

theorem memIv_neg {x : ℝ} {a : Iv} (hx : memIv x a) : memIv (-x) (Iv.neg a) := by
  obtain ⟨h1, h2⟩ := hx
  have hxy : (-x) * (SC : ℝ) = -(x * SC) := by ring
  unfold memIv Iv.neg
  push_cast
  rw [hxy]
  constructor <;> linarith

theorem memIv_sub {x y : ℝ} {a b : Iv} (hx : memIv x a) (hy : memIv y b) :
    memIv (x - y) (Iv.sub a b) := by
  obtain ⟨h1, h2⟩ := hx
  obtain ⟨h3, h4⟩ := hy
  have hxy : (x - y) * (SC : ℝ) = x * SC - y * SC := by ring
  unfold memIv Iv.sub
  push_cast
  rw [hxy]
  constructor <;> linarith

theorem memIv_mul {x y : ℝ} {a b : Iv} (hx : memIv x a) (hy : memIv y b) :
    memIv (x * y) (Iv.mul a b) := by
  obtain ⟨h1, h2⟩ := hx
  obtain ⟨h3, h4⟩ := hy
  have hmin : ((min (min (a.lo * b.lo) (a.lo * b.hi)) (min (a.hi * b.lo) (a.hi * b.hi)) : ℤ) : ℝ)
      ≤ (x * SC) * (y * SC) := by
    push_cast
    exact four_le_mul _ _ _ _ _ _ h1 h2 h3 h4
  have hmax : (x * SC) * (y * SC)
      ≤ ((max (max (a.lo * b.lo) (a.lo * b.hi)) (max (a.hi * b.lo) (a.hi * b.hi)) : ℤ) : ℝ) := by
    push_cast
    exact mul_le_four _ _ _ _ _ _ h1 h2 h3 h4
  have hre : (x * SC) * (y * SC) = ((x * y) * (SC : ℝ)) * (SC : ℝ) := by ring
  constructor
  · exact fdiv_le_target SC_pos (by rw [← hre] at *; linarith)
  · exact target_le_cdiv SC_pos (by rw [← hre] at *; linarith)

theorem memIv_inv {y : ℝ} {b : Iv} (hy : memIv y b) (hb : 0 < b.lo) :
    memIv (1 / y) (Iv.inv b) := by
  obtain ⟨h1, h2⟩ := hy
  have hbloR : (0 : ℝ) < (b.lo : ℝ) := by exact_mod_cast hb
  have hySC : (0 : ℝ) < y * SC := lt_of_lt_of_le hbloR h1
  have hypos : 0 < y := by
    by_contra hneg
    push_neg at hneg
    nlinarith [SC_posR]
  have hbhiR : (0 : ℝ) < (b.hi : ℝ) := lt_of_lt_of_le hySC h2
  have hbhiZ : (0 : ℤ) < b.hi := by exact_mod_cast hbhiR
  constructor
  · refine fdiv_le_target hbhiZ ?_
    push_cast
    have hkey : (SC : ℝ) ≤ (b.hi : ℝ) / y := by
      rw [le_div_iff hypos]
      have hcomm : (SC : ℝ) * y = y * SC := by ring
      linarith
    have heq : (1 / y * SC) * (b.hi : ℝ) = (SC : ℝ) * ((b.hi : ℝ) / y) := by
      field_simp
    rw [heq]
    exact mul_le_mul_of_nonneg_left hkey SC_posR.le
  · refine target_le_cdiv hb ?_
    push_cast
    have hkey : (b.lo : ℝ) / y ≤ SC := by
      rw [div_le_iff hypos]
      have hcomm : (SC : ℝ) * y = y * SC := by ring
      linarith
    have heq : (1 / y * SC) * (b.lo : ℝ) = (SC : ℝ) * ((b.lo : ℝ) / y) := by
      field_simp
    rw [heq]
    exact mul_le_mul_of_nonneg_left hkey SC_posR.le

theorem memIv_sqrt {x : ℝ} {a : Iv} (hx : memIv x a) (hx0 : 0 ≤ x) (hok : sqrtOK a) :
    memIv (Real.sqrt x) (Iv.sqrtIv a) := by
  obtain ⟨h1, h2⟩ := hx
  obtain ⟨hk1, hk2, hk3, hk4⟩ := hok
  have hsc2 : Real.sqrt x * (SC : ℝ) = Real.sqrt (x * (SC : ℝ) ^ 2) := by
    rw [Real.sqrt_mul hx0, Real.sqrt_sq SC_posR.le]
  constructor
  · rw [hsc2]
    refine Real.le_sqrt_of_sq_le ?_
    have hcast : ((a.sqrtIv.lo : ℤ) : ℝ) * ((a.sqrtIv.lo : ℤ) : ℝ)
        ≤ ((max a.lo 0 : ℤ) : ℝ) * (SC : ℝ) := by exact_mod_cast hk2
    have hmax : ((max a.lo 0 : ℤ) : ℝ) ≤ x * SC := by
      rw [Int.cast_max]
      push_cast
      exact max_le h1 (mul_nonneg hx0 SC_posR.le)
    have hmul : ((max a.lo 0 : ℤ) : ℝ) * (SC : ℝ) ≤ (x * SC) * SC :=
      mul_le_mul_of_nonneg_right hmax SC_posR.le
    nlinarith [hcast, hmul]
  · rw [hsc2]
    rw [Real.sqrt_le_iff]
    constructor
    · exact_mod_cast hk4
    · have hcast : ((a.hi : ℤ) : ℝ) * (SC : ℝ)
          ≤ ((a.sqrtIv.hi : ℤ) : ℝ) * ((a.sqrtIv.hi : ℤ) : ℝ) := by exact_mod_cast hk3
      have hmul : (x * SC) * SC ≤ ((a.hi : ℤ) : ℝ) * (SC : ℝ) :=
        mul_le_mul_of_nonneg_right h2 SC_posR.le
      nlinarith [hcast, hmul]

theorem memIv_cdt : memIv 0.0001 cdt := by
  unfold memIv cdt cIv
  norm_num [SC]

theorem memIv_chalf : memIv 0.5 chalf := by
  unfold memIv chalf cIv
  norm_num [SC]

theorem memIv_c100th : memIv (1 / 100) c100th := by
  unfold memIv c100th cIv
  norm_num [SC]

theorem memIv_cnum : memIv (1 * 100 * 100) cnum := by
  unfold memIv cnum cIv
  norm_num [SC]

theorem memIv_c100SC : memIv 100 (cIv (100 * SC)) := by
  unfold memIv cIv
  norm_num [SC]

theorem ivForce_sound {x1 y1 x2 y2 : ℝ} {X1 Y1 X2 Y2 : Iv}
    (h1 : memIv x1 X1) (h2 : memIv y1 Y1) (h3 : memIv x2 X2) (h4 : memIv y2 Y2)
    (hok : ivForceOK X1 Y1 X2 Y2) :
    memIv (fP2 x1 y1 x2 y2).1 (ivForce X1 Y1 X2 Y2).1 ∧
    memIv (fP2 x1 y1 x2 y2).2 (ivForce X1 Y1 X2 Y2).2 := by
  obtain ⟨hsq, hddpos, hdpos⟩ := hok
  have hu : memIv (x1 - x2) (X1.sub X2) := memIv_sub h1 h3
  have hv : memIv (y1 - y2) (Y1.sub Y2) := memIv_sub h2 h4
  have hd2 : memIv ((x1 - x2) * (x1 - x2) + (y1 - y2) * (y1 - y2))
      (((X1.sub X2).mul (X1.sub X2)).add ((Y1.sub Y2).mul (Y1.sub Y2))) :=
    memIv_add (memIv_mul hu hu) (memIv_mul hv hv)
  have harg0 : (0 : ℝ) ≤ (x1 - x2) * (x1 - x2) + (y1 - y2) * (y1 - y2) :=
    add_nonneg (mul_self_nonneg _) (mul_self_nonneg _)
  set DR := Real.sqrt ((x1 - x2) * (x1 - x2) + (y1 - y2) * (y1 - y2)) with hDR
  set DI := (((X1.sub X2).mul (X1.sub X2)).add ((Y1.sub Y2).mul (Y1.sub Y2))).sqrtIv
    with hDI
  have hd : memIv DR DI := memIv_sqrt hd2 harg0 hsq
  have hdd : memIv (DR * DR) (DI.mul DI) := memIv_mul hd hd
  have hdirect : memIv ((1 * 100 * 100) * (1 / (DR * DR))) (cnum.mul (DI.mul DI).inv) :=
    memIv_mul memIv_cnum (memIv_inv hdd hddpos)
  constructor
  · have heq : (fP2 x1 y1 x2 y2).1
        = ((1 * 100 * 100) * (1 / (DR * DR)) * (x2 - x1)) * (1 / DR) := by
      show 1 * 100 * 100 / (DR * DR) * (x2 - x1) / DR = _
      ring
    rw [heq]
    exact memIv_mul (memIv_mul hdirect (memIv_sub h3 h1)) (memIv_inv hd hdpos)
  · have heq : (fP2 x1 y1 x2 y2).2
        = ((1 * 100 * 100) * (1 / (DR * DR)) * (y2 - y1)) * (1 / DR) := by
      show 1 * 100 * 100 / (DR * DR) * (y2 - y1) / DR = _
      ring
    rw [heq]
    exact memIv_mul (memIv_mul hdirect (memIv_sub h4 h2)) (memIv_inv hd hdpos)

theorem ivA_sound {x1 y1 x2 y2 : ℝ} {X1 Y1 X2 Y2 : Iv}
    (h1 : memIv x1 X1) (h2 : memIv y1 Y1) (h3 : memIv x2 X2) (h4 : memIv y2 Y2)
    (hok : ivForceOK X1 Y1 X2 Y2) :
    memIv (aP2 x1 y1 x2 y2).1 (ivA X1 Y1 X2 Y2).1 ∧
    memIv (aP2 x1 y1 x2 y2).2 (ivA X1 Y1 X2 Y2).2 := by
  obtain ⟨hf1, hf2⟩ := ivForce_sound h1 h2 h3 h4 hok
  constructor
  · have heq : (aP2 x1 y1 x2 y2).1 = (fP2 x1 y1 x2 y2).1 * (1 / 100) := by
      show (fP2 x1 y1 x2 y2).1 / 100 = _
      ring
    rw [heq]
    exact memIv_mul hf1 memIv_c100th
  · have heq : (aP2 x1 y1 x2 y2).2 = (fP2 x1 y1 x2 y2).2 * (1 / 100) := by
      show (fP2 x1 y1 x2 y2).2 / 100 = _
      ring
    rw [heq]
    exact memIv_mul hf2 memIv_c100th

theorem ivMoved_sound {q : P2} {S : IvP2} (hq : memP2 q S)
    (hok : ivForceOK S.x1 S.y1 S.x2 S.y2) :
    memP2 (movedP2 q) (ivMoved S) := by
  obtain ⟨hx1, hy1, hvx1, hvy1, hx2, hy2, hvx2, hvy2⟩ := hq
  obtain ⟨ha1, ha2⟩ := ivA_sound hx1 hy1 hx2 hy2 hok
  exact ⟨memIv_add (memIv_add hx1 (memIv_mul hvx1 memIv_cdt))
      (memIv_mul (memIv_mul (memIv_mul memIv_chalf ha1) memIv_cdt) memIv_cdt),
    memIv_add (memIv_add hy1 (memIv_mul hvy1 memIv_cdt))
      (memIv_mul (memIv_mul (memIv_mul memIv_chalf ha2) memIv_cdt) memIv_cdt),
    hvx1, hvy1,
    memIv_add (memIv_add hx2 (memIv_mul hvx2 memIv_cdt))
      (memIv_mul (memIv_mul (memIv_mul memIv_chalf (memIv_neg ha1)) memIv_cdt) memIv_cdt),
    memIv_add (memIv_add hy2 (memIv_mul hvy2 memIv_cdt))
      (memIv_mul (memIv_mul (memIv_mul memIv_chalf (memIv_neg ha2)) memIv_cdt) memIv_cdt),
    hvx2, hvy2⟩

theorem ivStep_sound {q : P2} {S : IvP2} (hq : memP2 q S) (hok : ivStepOK S) :
    memP2 (stepP2 q) (ivStep S) := by
  obtain ⟨hok1, hok2⟩ := hok
  obtain ⟨hx1, hy1, hvx1, hvy1, hx2, hy2, hvx2, hvy2⟩ := hq
  obtain ⟨ha1, ha2⟩ := ivA_sound hx1 hy1 hx2 hy2 hok1
  have hm : memP2 (movedP2 q) (ivMoved S) :=
    ivMoved_sound ⟨hx1, hy1, hvx1, hvy1, hx2, hy2, hvx2, hvy2⟩ hok1
  obtain ⟨hmx1, hmy1, hmvx1, hmvy1, hmx2, hmy2, hmvx2, hmvy2⟩ := hm
  obtain ⟨hb1, hb2⟩ := ivA_sound hmx1 hmy1 hmx2 hmy2 hok2
  exact ⟨hmx1, hmy1,
    memIv_add hvx1 (memIv_mul (memIv_mul memIv_chalf (memIv_add ha1 hb1)) memIv_cdt),
    memIv_add hvy1 (memIv_mul (memIv_mul memIv_chalf (memIv_add ha2 hb2)) memIv_cdt),
    hmx2, hmy2,
    memIv_add hvx2 (memIv_mul (memIv_mul memIv_chalf
      (memIv_add (memIv_neg ha1) (memIv_neg hb1))) memIv_cdt),
    memIv_add hvy2 (memIv_mul (memIv_mul memIv_chalf
      (memIv_add (memIv_neg ha2) (memIv_neg hb2))) memIv_cdt)⟩

theorem ivEnergy_sound {q : P2} {S : IvP2} (hq : memP2 q S) (hok : ivEnergyOK S) :
    memIv (EP2 q) (ivEnergy S) := by
  obtain ⟨hx1, hy1, hvx1, hvy1, hx2, hy2, hvx2, hvy2⟩ := hq
  obtain ⟨hsq, hdpos⟩ := hok
  have hu : memIv (q.x1 - q.x2) (S.x1.sub S.x2) := memIv_sub hx1 hx2
  have hv : memIv (q.y1 - q.y2) (S.y1.sub S.y2) := memIv_sub hy1 hy2
  have hd2 : memIv ((q.x1 - q.x2) * (q.x1 - q.x2) + (q.y1 - q.y2) * (q.y1 - q.y2))
      (((S.x1.sub S.x2).mul (S.x1.sub S.x2)).add ((S.y1.sub S.y2).mul (S.y1.sub S.y2))) :=
    memIv_add (memIv_mul hu hu) (memIv_mul hv hv)
  have harg0 : (0 : ℝ)
      ≤ (q.x1 - q.x2) * (q.x1 - q.x2) + (q.y1 - q.y2) * (q.y1 - q.y2) :=
    add_nonneg (mul_self_nonneg _) (mul_self_nonneg _)
  set DR := Real.sqrt ((q.x1 - q.x2) * (q.x1 - q.x2) + (q.y1 - q.y2) * (q.y1 - q.y2))
    with hDR
  set DI := (((S.x1.sub S.x2).mul (S.x1.sub S.x2)).add
    ((S.y1.sub S.y2).mul (S.y1.sub S.y2))).sqrtIv with hDI
  have hd : memIv DR DI := memIv_sqrt hd2 harg0 hsq
  have hke1 : memIv ((0.5 * 100) * (q.vx1 * q.vx1 + q.vy1 * q.vy1))
      ((chalf.mul (cIv (100 * SC))).mul ((S.vx1.mul S.vx1).add (S.vy1.mul S.vy1))) :=
    memIv_mul (memIv_mul memIv_chalf memIv_c100SC)
      (memIv_add (memIv_mul hvx1 hvx1) (memIv_mul hvy1 hvy1))
  have hke2 : memIv ((0.5 * 100) * (q.vx2 * q.vx2 + q.vy2 * q.vy2))
      ((chalf.mul (cIv (100 * SC))).mul ((S.vx2.mul S.vx2).add (S.vy2.mul S.vy2))) :=
    memIv_mul (memIv_mul memIv_chalf memIv_c100SC)
      (memIv_add (memIv_mul hvx2 hvx2) (memIv_mul hvy2 hvy2))
  have heq : EP2 q
      = ((0.5 * 100) * (q.vx1 * q.vx1 + q.vy1 * q.vy1)
          + (0.5 * 100) * (q.vx2 * q.vx2 + q.vy2 * q.vy2))
        - ((1 * 100 * 100) * (1 / DR)) := by
    show 0.5 * 100 * (q.vx1 * q.vx1 + q.vy1 * q.vy1)
        + 0.5 * 100 * (q.vx2 * q.vx2 + q.vy2 * q.vy2)
        - 1 * 100 * 100 / DR = _
    ring
  rw [heq]
  exact memIv_sub (memIv_add hke1 hke2)
    (memIv_mul memIv_cnum (memIv_inv hd hdpos))

/-! ### The two-body scenario reduces to `stepP2` -/

theorem pairFinset_two : pairFinset 2 = {(0, 1)} := by decide

theorem range_two : List.range 2 = [0, 1] := by decide

theorem accelSpec_pair_zero (b1 b2 : Body) (g : ℝ) :
    accelSpec [b1, b2] g 0 = vdiv (b1.gravitational_force b2 g) b1.mass := by
  rw [accelSpec]
  have hl : ([b1, b2] : List Body).length = 2 := rfl
  rw [hl, pairFinset_two, Finset.sum_singleton]
  simp [pairContrib, pairForce]

theorem accelSpec_pair_one (b1 b2 : Body) (g : ℝ) :
    accelSpec [b1, b2] g 1 = -vdiv (b1.gravitational_force b2 g) b2.mass := by
  rw [accelSpec]
  have hl : ([b1, b2] : List Body).length = 2 := rfl
  rw [hl, pairFinset_two, Finset.sum_singleton]
  simp [pairContrib, pairForce]

theorem posUpdateSpec_pair (b1 b2 : Body) (g dt : ℝ) :
    posUpdateSpec [b1, b2] g dt =
      [{ b1 with position :=
          (b1.position.1 + b1.velocity.1 * dt
            + 0.5 * (vdiv (b1.gravitational_force b2 g) b1.mass).1 * dt * dt,
           b1.position.2 + b1.velocity.2 * dt
            + 0.5 * (vdiv (b1.gravitational_force b2 g) b1.mass).2 * dt * dt) },
       { b2 with position :=
          (b2.position.1 + b2.velocity.1 * dt
            + 0.5 * (-vdiv (b1.gravitational_force b2 g) b2.mass).1 * dt * dt,
           b2.position.2 + b2.velocity.2 * dt
            + 0.5 * (-vdiv (b1.gravitational_force b2 g) b2.mass).2 * dt * dt) }] := by
  unfold posUpdateSpec
  have hl : ([b1, b2] : List Body).length = 2 := rfl
  rw [hl, range_two]
  simp only [List.map_cons, List.map_nil, List.getD_cons_zero, List.getD_cons_succ,
    accelSpec_pair_zero, accelSpec_pair_one]

theorem velUpdateSpec_pair (b1 b2 c1 c2 : Body) (g dt : ℝ) :
    velUpdateSpec [b1, b2] [c1, c2] g dt =
      [{ c1 with velocity :=
          (c1.velocity.1 + 0.5 * ((vdiv (b1.gravitational_force b2 g) b1.mass).1
              + (vdiv (c1.gravitational_force c2 g) c1.mass).1) * dt,
           c1.velocity.2 + 0.5 * ((vdiv (b1.gravitational_force b2 g) b1.mass).2
              + (vdiv (c1.gravitational_force c2 g) c1.mass).2) * dt) },
       { c2 with velocity :=
          (c2.velocity.1 + 0.5 * ((-vdiv (b1.gravitational_force b2 g) b2.mass).1
              + (-vdiv (c1.gravitational_force c2 g) c2.mass).1) * dt,
           c2.velocity.2 + 0.5 * ((-vdiv (b1.gravitational_force b2 g) b2.mass).2
              + (-vdiv (c1.gravitational_force c2 g) c2.mass).2) * dt) }] := by
  unfold velUpdateSpec
  have hl : ([c1, c2] : List Body).length = 2 := rfl
  rw [hl, range_two]
  simp only [List.map_cons, List.map_nil, List.getD_cons_zero, List.getD_cons_succ,
    accelSpec_pair_zero, accelSpec_pair_one]

theorem stepP2_models (q : P2) : (toState q).step = toState (stepP2 q) := by
  rw [step_eq_stepSpec]
  simp only [stepSpec, toState]
  rw [posUpdateSpec_pair, velUpdateSpec_pair]
  rfl

theorem energy_two (q : P2) : (toState q).total_energy = EP2 q := by
  have hTK : (toState q).total_kinetic_energy
      = 0 + 0.5 * 100 * (q.vx1 * q.vx1 + q.vy1 * q.vy1)
          + 0.5 * 100 * (q.vx2 * q.vx2 + q.vy2 * q.vy2) := rfl
  have hTP : (toState q).total_potential_energy
      = 0 - 1 * 100 * 100
          / Real.sqrt ((q.x1 - q.x2) * (q.x1 - q.x2) + (q.y1 - q.y2) * (q.y1 - q.y2)) := rfl
  show (toState q).total_kinetic_energy + (toState q).total_potential_energy = EP2 q
  rw [hTK, hTP, EP2]
  ring

theorem State_new_eq : State.new = toState q0 := by
  simp only [State.new, toState, q0, Body.new, Except.toOption, Option.getD_some]
  norm_num

theorem sqrt_four : Real.sqrt 4 = 2 := by
  rw [show (4 : ℝ) = 2 ^ 2 by norm_num, Real.sqrt_sq (by norm_num : (0 : ℝ) ≤ 2)]

theorem EP2_q0 : EP2 q0 = -4900 := by
  simp only [EP2, q0]
  norm_num
  rw [sqrt_four]
  norm_num

/-! ### The checked interval run -/

set_option maxRecDepth 100000 in
theorem ivStepOK_S0 : ivStepOK ivS0 := by decide

set_option maxRecDepth 100000 in
theorem ivStep_S0 : ivStep ivS0 = ivS1 := by decide

set_option maxRecDepth 100000 in
theorem ivStepOK_S1 : ivStepOK ivS1 := by decide

set_option maxRecDepth 100000 in
theorem ivStep_S1 : ivStep ivS1 = ivS2 := by decide

set_option maxRecDepth 100000 in
theorem ivStepOK_S2 : ivStepOK ivS2 := by decide

set_option maxRecDepth 100000 in
theorem ivStep_S2 : ivStep ivS2 = ivS3 := by decide

set_option maxRecDepth 100000 in
theorem ivStepOK_S3 : ivStepOK ivS3 := by decide

set_option maxRecDepth 100000 in
theorem ivStep_S3 : ivStep ivS3 = ivS4 := by decide

set_option maxRecDepth 100000 in
theorem ivStepOK_S4 : ivStepOK ivS4 := by decide

set_option maxRecDepth 100000 in
theorem ivStep_S4 : ivStep ivS4 = ivS5 := by decide

set_option maxRecDepth 100000 in
theorem ivStepOK_S5 : ivStepOK ivS5 := by decide

set_option maxRecDepth 100000 in
theorem ivStep_S5 : ivStep ivS5 = ivS6 := by decide

set_option maxRecDepth 100000 in
theorem ivStepOK_S6 : ivStepOK ivS6 := by decide

set_option maxRecDepth 100000 in
theorem ivStep_S6 : ivStep ivS6 = ivS7 := by decide

set_option maxRecDepth 100000 in
theorem ivStepOK_S7 : ivStepOK ivS7 := by decide

set_option maxRecDepth 100000 in
theorem ivStep_S7 : ivStep ivS7 = ivS8 := by decide

set_option maxRecDepth 100000 in
theorem ivStepOK_S8 : ivStepOK ivS8 := by decide

set_option maxRecDepth 100000 in
theorem ivStep_S8 : ivStep ivS8 = ivS9 := by decide

set_option maxRecDepth 100000 in
theorem ivStepOK_S9 : ivStepOK ivS9 := by decide

set_option maxRecDepth 100000 in
theorem ivStep_S9 : ivStep ivS9 = ivS10 := by decide

set_option maxRecDepth 100000 in
theorem ivEnergyOK_S10 : ivEnergyOK ivS10 := by decide

set_option maxRecDepth 100000 in
theorem ivEnergy_S10 : ivEnergy ivS10 = ivEfin := by decide

theorem mem_q0 : memP2 q0 ivS0 := by
  unfold memP2 memIv q0 ivS0
  norm_num [SC]

theorem mem_E10 :
    memIv (EP2 (stepP2 (stepP2 (stepP2 (stepP2 (stepP2 (stepP2 (stepP2 (stepP2
      (stepP2 (stepP2 q0))))))))))) ivEfin := by
  have m1 : memP2 (stepP2 q0) ivS1 := by
    rw [← ivStep_S0]
    exact ivStep_sound mem_q0 ivStepOK_S0
  have m2 : memP2 (stepP2 (stepP2 q0)) ivS2 := by
    rw [← ivStep_S1]
    exact ivStep_sound m1 ivStepOK_S1
  have m3 : memP2 (stepP2 (stepP2 (stepP2 q0))) ivS3 := by
    rw [← ivStep_S2]
    exact ivStep_sound m2 ivStepOK_S2
  have m4 : memP2 (stepP2 (stepP2 (stepP2 (stepP2 q0)))) ivS4 := by
    rw [← ivStep_S3]
    exact ivStep_sound m3 ivStepOK_S3
  have m5 : memP2 (stepP2 (stepP2 (stepP2 (stepP2 (stepP2 q0))))) ivS5 := by
    rw [← ivStep_S4]
    exact ivStep_sound m4 ivStepOK_S4
  have m6 : memP2 (stepP2 (stepP2 (stepP2 (stepP2 (stepP2 (stepP2 q0)))))) ivS6 := by
    rw [← ivStep_S5]
    exact ivStep_sound m5 ivStepOK_S5
  have m7 : memP2 (stepP2 (stepP2 (stepP2 (stepP2 (stepP2 (stepP2 (stepP2 q0)))))))
      ivS7 := by
    rw [← ivStep_S6]
    exact ivStep_sound m6 ivStepOK_S6
  have m8 : memP2 (stepP2 (stepP2 (stepP2 (stepP2 (stepP2 (stepP2 (stepP2 (stepP2
      q0)))))))) ivS8 := by
    rw [← ivStep_S7]
    exact ivStep_sound m7 ivStepOK_S7
  have m9 : memP2 (stepP2 (stepP2 (stepP2 (stepP2 (stepP2 (stepP2 (stepP2 (stepP2
      (stepP2 q0))))))))) ivS9 := by
    rw [← ivStep_S8]
    exact ivStep_sound m8 ivStepOK_S8
  have m10 : memP2 (stepP2 (stepP2 (stepP2 (stepP2 (stepP2 (stepP2 (stepP2 (stepP2
      (stepP2 (stepP2 q0)))))))))) ivS10 := by
    rw [← ivStep_S9]
    exact ivStep_sound m9 ivStepOK_S9
  rw [← ivEnergy_S10]
  exact ivEnergy_sound m10 ivEnergyOK_S10

/-- C7: starting from the hardcoded two-body scenario of `State::new`
(masses 100 at (-1,0) and (1,0), velocities (0,1) and (0,-1), g = 1,
dt = 0.0001), after ten calls to `step` the value of `total_energy` differs
from its value before the first step by less than 0.01. -/
theorem energy_drift_ten_steps :
    |State.new.step.step.step.step.step.step.step.step.step.step.total_energy
      - State.new.total_energy| < 0.01 := by
  have hchain : State.new.step.step.step.step.step.step.step.step.step.step
      = toState (stepP2 (stepP2 (stepP2 (stepP2 (stepP2 (stepP2 (stepP2 (stepP2
          (stepP2 (stepP2 q0)))))))))) := by
    rw [State_new_eq]
    simp only [stepP2_models]
  rw [hchain, energy_two, State_new_eq, energy_two, EP2_q0]
  obtain ⟨hlo, hhi⟩ := mem_E10
  have hlo' : ((-4900000000061800 : ℤ) : ℝ)
      ≤ EP2 (stepP2 (stepP2 (stepP2 (stepP2 (stepP2 (stepP2 (stepP2 (stepP2
          (stepP2 (stepP2 q0)))))))))) * (SC : ℝ) := hlo
  have hhi' : EP2 (stepP2 (stepP2 (stepP2 (stepP2 (stepP2 (stepP2 (stepP2 (stepP2
          (stepP2 (stepP2 q0)))))))))) * (SC : ℝ)
      ≤ ((-4899999999949600 : ℤ) : ℝ) := hhi
  have hSC : (SC : ℝ) = 10 ^ 12 := by norm_num [SC]
  rw [hSC] at hlo' hhi'
  push_cast at hlo' hhi'
  rw [abs_lt]
  constructor <;> linarith
